import Mathlib

/-!
Verification development for the Happy Hour Games repository: a shallow
embedding in Lean 4 of the three game engines (`the_mind.py`,
`azroks_republic.py`, `team_supreme_scribbles.py`) and of the room-creation
validation in `server.py`, together with theorems settling the specification
claims about them.

Conventions used throughout the embedding:
* Python `Dict[int, X]` keyed by the player slots `0 .. n-1` is modelled as a
  `List X` of length `n`; the membership test `pid in dict` becomes
  `pid < list.length`.
* Methods that mutate `self` and return a value become functions
  `State → ... → Result × State` (purely functional state passing).
* Calls to `random.*` become explicit parameters: the shuffled deck, the dice
  roll, the index of the randomly chosen word.  Every behaviour of the Python
  code corresponds to some choice of parameter.
* Machine integers are `Nat`/`Int` (Python integers are unbounded, so no
  wraparound modelling is needed).
-/

namespace TheMind

/-- Enum `GameState` from `the_mind.py`. -/
inductive GameState where
  | SETUP
  | IN_PROGRESS
  | LEVEL_COMPLETE
  | GAME_WON
  | GAME_LOST
deriving DecidableEq, Repr

/-- State of a `TheMind` instance (`the_mind.py`).  The field `deck` of the
Python class is omitted: after dealing it is never read again, so it does not
influence any observable behaviour.  `player_hands` is the `Dict[int, List[int]]`
of the source, as a list indexed by player slot. -/
structure MindState where
  num_players : Nat
  current_level : Nat
  lives : Int
  max_lives : Nat
  throwing_stars : Nat
  max_throwing_stars : Nat
  state : GameState
  player_hands : List (List Nat)
  played_pile : List Nat
  discarded_cards : List Nat
deriving DecidableEq, Repr

/-- Class constant `MAX_LEVELS`. -/
def MAX_LEVELS : Nat := 12

/-- Class constant `CARD_MIN`. -/
def CARD_MIN : Nat := 1

/-- Class constant `CARD_MAX`. -/
def CARD_MAX : Nat := 100

/-- Class constant `PLAYER_CONFIG`: maps player count to (lives, throwing stars). -/
def PLAYER_CONFIG (n : Nat) : Option (Nat × Nat) :=
  if n = 2 then some (2, 1)
  else if n = 3 then some (3, 1)
  else if n = 4 then some (4, 1)
  else none

/-- Constructor `TheMind.__init__`: `none` models the `ValueError` raised on an
invalid player count. -/
def init (num_players : Nat) : Option MindState :=
  match PLAYER_CONFIG num_players with
  | none => none
  | some (lives, stars) =>
      some { num_players := num_players
             current_level := 1
             lives := (lives : Int)
             max_lives := lives
             throwing_stars := stars
             max_throwing_stars := stars
             state := GameState.SETUP
             player_hands := List.replicate num_players []
             played_pile := []
             discarded_cards := [] }

/-- Expression `self.played_pile[-1] if self.played_pile else 0` used by
`play_card` and `_handle_out_of_order`. -/
def lastPlayed (pile : List Nat) : Nat := pile.getLastD 0

/-- Cards collected by the discard loops of `_handle_skipped_cards` and
`_handle_out_of_order`: for each hand in slot order, the cards strictly
between `last` and `played`, concatenated. -/
def skippedCards (last played : Nat) (hands : List (List Nat)) : List Nat :=
  (hands.map (fun h => h.filter (fun x => decide (last < x ∧ x < played)))).flatten

/-- Hands after the discard loops of `_handle_skipped_cards` /
`_handle_out_of_order`: every card strictly between the two bounds is removed
from every hand. -/
def dropSkipped (last played : Nat) (hands : List (List Nat)) : List (List Nat) :=
  hands.map (fun h => h.filter (fun x => !(decide (last < x ∧ x < played))))

/-- Method `TheMind._handle_skipped_cards`.  Returns the `bool` result of the
Python method together with the updated state. -/
def handle_skipped_cards (s : MindState) (last_played_card played_card : Nat) :
    Bool × MindState :=
  let sk := skippedCards last_played_card played_card s.player_hands
  let s := { s with
    player_hands := dropSkipped last_played_card played_card s.player_hands
    discarded_cards := s.discarded_cards ++ sk }
  if sk = [] then (false, s)
  else
    let s := { s with lives := s.lives - 1 }
    if s.lives ≤ 0 then (true, { s with state := GameState.GAME_LOST })
    else (true, s)

/-- Method `TheMind._handle_out_of_order` (note: the failed card was not added
to the pile, so the top of `played_pile` is still the previous top). -/
def handle_out_of_order (s : MindState) (failed_card : Nat) : MindState :=
  let s := { s with lives := s.lives - 1 }
  let last := lastPlayed s.played_pile
  let disc := skippedCards last failed_card s.player_hands
  let s := { s with
    player_hands := dropSkipped last failed_card s.player_hands
    discarded_cards := s.discarded_cards ++ disc }
  if s.lives ≤ 0 then { s with state := GameState.GAME_LOST } else s

/-- Predicate `TheMind._is_level_complete`. -/
def is_level_complete (s : MindState) : Bool :=
  (s.player_hands.map (fun h => h.length)).sum = 0

/-- Method `TheMind._complete_level`. -/
def complete_level (s : MindState) : MindState :=
  let s := { s with state := GameState.LEVEL_COMPLETE }
  if s.current_level ≥ MAX_LEVELS then { s with state := GameState.GAME_WON }
  else { s with current_level := s.current_level + 1 }

/-- Method `TheMind.play_card`.  The Python method returns `(success, message)`;
the message strings carry no additional information, so the embedding keeps
only the success flag, paired with the updated state. -/
def play_card (s : MindState) (player_id card : Nat) : Bool × MindState :=
  if s.state ≠ GameState.IN_PROGRESS then (false, s)
  else if ¬ player_id < s.player_hands.length then (false, s)
  else if ¬ card ∈ s.player_hands.getD player_id [] then (false, s)
  else
    let last_played_card := lastPlayed s.played_pile
    if card < last_played_card then (false, handle_out_of_order s card)
    else
      let s := { s with
        player_hands := s.player_hands.set player_id
          ((s.player_hands.getD player_id []).erase card)
        played_pile := s.played_pile ++ [card] }
      let r := handle_skipped_cards s last_played_card card
      let s := r.2
      if s.state = GameState.GAME_LOST then (true, s)
      else if is_level_complete s then (true, complete_level s)
      else (true, s)

/-- Method `TheMind.use_throwing_star`.  The Python method returns
`(success, dict player_id -> discarded card)`; the dict is modelled as the
association list of (slot, lowest card) for the non-empty hands in slot order. -/
def use_throwing_star (s : MindState) : (Bool × List (Nat × Nat)) × MindState :=
  if s.state ≠ GameState.IN_PROGRESS then ((false, []), s)
  else if s.throwing_stars = 0 then ((false, []), s)
  else
    let drops := s.player_hands.enum.filterMap
      (fun p => (p.2.min?).map (fun m => (p.1, m)))
    ((true, drops),
     { s with
        throwing_stars := s.throwing_stars - 1
        player_hands := s.player_hands.map
          (fun h => match h.min? with
            | none => h
            | some m => h.erase m)
        discarded_cards := s.discarded_cards ++ drops.map (fun p => p.2) })

/-- Method `TheMind.setup_level`.  The shuffled deck is passed explicitly:
`deck` is the list `self.deck` right after `random.shuffle`, and `deck.pop()`
removes from its end, so player 0 receives the first `current_level` cards of
`deck.reverse`, player 1 the next ones, and so on, each hand sorted ascending. -/
def dealHands : Nat → Nat → List Nat → List (List Nat)
  | 0, _, _ => []
  | n + 1, lvl, ds => (ds.take lvl).insertionSort (· ≤ ·) :: dealHands n lvl (ds.drop lvl)

/-- Method `TheMind.setup_level` (see `dealHands` for the deck convention). -/
def setup_level (s : MindState) (deck : List Nat) : MindState :=
  { s with
    player_hands := dealHands s.num_players s.current_level deck.reverse
    played_pile := []
    discarded_cards := []
    state := GameState.IN_PROGRESS }

/-- Projection of `TheMind.get_game_info` (the fields of the returned dict). -/
structure GameInfo where
  num_players : Nat
  current_level : Nat
  lives : Int
  max_lives : Nat
  throwing_stars : Nat
  max_throwing_stars : Nat
  state : GameState
  played_pile : List Nat
  cards_in_play : Nat
deriving DecidableEq, Repr

/-- Method `TheMind.get_game_info`. -/
def get_game_info (s : MindState) : GameInfo :=
  { num_players := s.num_players
    current_level := s.current_level
    lives := s.lives
    max_lives := s.max_lives
    throwing_stars := s.throwing_stars
    max_throwing_stars := s.max_throwing_stars
    state := s.state
    played_pile := s.played_pile
    cards_in_play := (s.player_hands.map (fun h => h.length)).sum }

/-- Method `TheMind.get_player_hand`. -/
def get_player_hand (s : MindState) (player_id : Nat) : List Nat :=
  if player_id < s.player_hands.length then
    (s.player_hands.getD player_id []).insertionSort (· ≤ ·)
  else []

/-- States of the card engine reachable through its interface: the constructor
followed by any sequence of `setup_level` (always called with a freshly
shuffled full deck, i.e. a permutation of `1..100`), `play_card` and
`use_throwing_star` calls. -/
inductive Reachable : MindState → Prop where
  | init (n : Nat) (s : MindState) : init n = some s → Reachable s
  | setup (s : MindState) (deck : List Nat) : Reachable s →
      deck.Perm (List.range' 1 100) → Reachable (setup_level s deck)
  | play (s : MindState) (pid card : Nat) : Reachable s →
      Reachable (play_card s pid card).2
  | star (s : MindState) : Reachable s →
      Reachable (use_throwing_star s).2

end TheMind

namespace TheMind

/-- Concrete two-player initial state (the value of `TheMind(num_players=2)`). -/
def mind2 : MindState :=
  { num_players := 2
    current_level := 1
    lives := 2
    max_lives := 2
    throwing_stars := 1
    max_throwing_stars := 1
    state := GameState.SETUP
    player_hands := [[], []]
    played_pile := []
    discarded_cards := [] }

end TheMind

namespace Azrok

/-- Enum `AzrokGameState` from `azroks_republic.py`. -/
inductive AzrokGameState where
  | SETUP
  | INVESTMENT_PHASE
  | RESOLUTION_PHASE
  | ROUND_END
  | GAME_WON_REPUBLIC
  | GAME_WON_DROW
deriving DecidableEq, Repr

/-- Constant `SECTORS` from `azroks_republic.py`. -/
def SECTORS : List String := ["Teachers", "Builders", "Miners", "Military"]

/-- Class constant `MAX_ROUNDS`. -/
def MAX_ROUNDS : Nat := 10

/-- Class constant `MAX_WAR_FAILURES`. -/
def MAX_WAR_FAILURES : Nat := 3

/-- Class constant `BASE_SALARY`. -/
def BASE_SALARY : Int := 2

/-- Class constant `IMPROVEMENT_COST`. -/
def IMPROVEMENT_COST : Int := 7

/-- Class constant `TAX_COST`. -/
def TAX_COST : Int := 1

/-- Class constant `TAX_EFFECT`. -/
def TAX_EFFECT : Int := 2

/-- Class constant `POWDER_CHARGE_COST`. -/
def POWDER_CHARGE_COST : Int := 12

/-- Class constant `AZROKS_DAGGER_COST`. -/
def AZROKS_DAGGER_COST : Int := 14

/-- Class constant `MAX_IMPROVEMENT_LEVEL`. -/
def MAX_IMPROVEMENT_LEVEL : Nat := 4

/-- Class constant `FRUITS_OF_LABOR_DECK`.  The Python deck holds the floats
`[1.5, 1.5, 1.5, 2.0, 2.0, 2.0, 2.5, 2.5, 3.0, 3.0]`; every multiplier is a
multiple of one half, so the embedding stores each multiplier doubled
(`3` stands for `1.5`, `4` for `2.0`, and so on), which keeps the arithmetic
exact. -/
def FRUITS_OF_LABOR_DECK : List Nat := [3, 3, 3, 4, 4, 4, 5, 5, 6, 6]

/-- State of an `AzroksRepublic` instance.  Dicts keyed by player slot become
lists of length `num_players`; `fruits_deck` and `current_fruits_card` use the
doubled-multiplier convention of `FRUITS_OF_LABOR_DECK`. -/
structure AzrokState where
  num_players : Nat
  state : AzrokGameState
  current_round : Nat
  sectors : List String
  roles : List String
  money : List Int
  improvement_level : List Nat
  general_secretary : Nat
  turn_order : List Nat
  current_turn_index : Nat
  has_used_tax : List Bool
  people_pot : Int
  war_failures : Nat
  fruits_deck : List Nat
  current_fruits_card : Option Nat
deriving DecidableEq, Repr

/-- Constructor `AzroksRepublic.__init__`: `none` models the `ValueError`
raised when `num_players != 4`. -/
def init (num_players : Nat) : Option AzrokState :=
  if num_players ≠ 4 then none
  else some
    { num_players := num_players
      state := AzrokGameState.SETUP
      current_round := 0
      sectors := (List.range num_players).map (fun i => SECTORS.getD i "")
      roles := []
      money := List.replicate num_players 0
      improvement_level := List.replicate num_players 1
      general_secretary := 0
      turn_order := []
      current_turn_index := 0
      has_used_tax := List.replicate num_players false
      people_pot := 0
      war_failures := 0
      fruits_deck := []
      current_fruits_card := none }

/-- Method `AzroksRepublic.setup_game`.  The two calls to `random.shuffle` and
the one to `random.randint` are made explicit: `roles` is the shuffled role
list, `secretary` the drawn General Secretary, `deck` the shuffled Fruits of
Labor deck. -/
def setup_game (s : AzrokState) (roles : List String) (secretary : Nat)
    (deck : List Nat) : AzrokState :=
  { s with
    roles := roles
    general_secretary := secretary
    fruits_deck := deck
    current_round := 0 }

/-- Method `AzroksRepublic.get_war_cost`. -/
def get_war_cost (s : AzrokState) : Int :=
  if s.current_round ≤ 3 then 1 * (s.num_players : Int)
  else if s.current_round ≤ 6 then 2 * (s.num_players : Int)
  else 3 * (s.num_players : Int)

/-- Method `AzroksRepublic.start_round`.  `dice_roll` is the explicit value of
`random.randint(1, num_players)`.  Of the returned dict only the success flag
is kept (the other entries are copies of state fields). -/
def start_round (s : AzrokState) (dice_roll : Nat) : Bool × AzrokState :=
  if ¬ (s.state = AzrokGameState.SETUP ∨ s.state = AzrokGameState.ROUND_END) then
    (false, s)
  else
    let s := { s with current_round := s.current_round + 1 }
    if s.current_round > MAX_ROUNDS then
      (true, { s with state := AzrokGameState.GAME_WON_REPUBLIC })
    else
      let money := (List.range s.num_players).map
        (fun i => s.money.getD i 0 + BASE_SALARY * (s.improvement_level.getD i 0 : Int))
      let positions := (List.range s.num_players).map
        (fun i => (s.general_secretary + i) % s.num_players)
      let start_idx := dice_roll - 1
      (true,
       { s with
          money := money
          turn_order := positions.drop start_idx ++ positions.take start_idx
          current_turn_index := 0
          has_used_tax := List.replicate s.num_players false
          state := AzrokGameState.INVESTMENT_PHASE })

/-- Method `AzroksRepublic.get_current_player`. -/
def get_current_player (s : AzrokState) : Option Nat :=
  if s.state ≠ AzrokGameState.INVESTMENT_PHASE then none
  else if s.current_turn_index ≥ s.turn_order.length then none
  else s.turn_order.get? s.current_turn_index

/-- Method `AzroksRepublic.invest_people` (success flag and updated state). -/
def invest_people (s : AzrokState) (player_id : Nat) (amount : Int) :
    Bool × AzrokState :=
  if s.state ≠ AzrokGameState.INVESTMENT_PHASE then (false, s)
  else if some player_id ≠ get_current_player s then (false, s)
  else if amount ≤ 0 then (false, s)
  else if amount > s.money.getD player_id 0 then (false, s)
  else
    (true,
     { s with
        money := s.money.set player_id (s.money.getD player_id 0 - amount)
        people_pot := s.people_pot + amount })

/-- Method `AzroksRepublic.invest_improvement`. -/
def invest_improvement (s : AzrokState) (player_id : Nat) : Bool × AzrokState :=
  if s.state ≠ AzrokGameState.INVESTMENT_PHASE then (false, s)
  else if some player_id ≠ get_current_player s then (false, s)
  else if s.money.getD player_id 0 < IMPROVEMENT_COST then (false, s)
  else if s.improvement_level.getD player_id 0 ≥ MAX_IMPROVEMENT_LEVEL then (false, s)
  else
    (true,
     { s with
        money := s.money.set player_id (s.money.getD player_id 0 - IMPROVEMENT_COST)
        improvement_level := s.improvement_level.set player_id
          (s.improvement_level.getD player_id 0 + 1) })

/-- Method `AzroksRepublic.use_tax`. -/
def use_tax (s : AzrokState) (player_id target_id : Nat) : Bool × AzrokState :=
  if s.state ≠ AzrokGameState.INVESTMENT_PHASE then (false, s)
  else if some player_id ≠ get_current_player s then (false, s)
  else if s.has_used_tax.getD player_id false then (false, s)
  else if player_id = target_id then (false, s)
  else if ¬ target_id < s.money.length then (false, s)
  else if s.money.getD player_id 0 < TAX_COST then (false, s)
  else
    let money := s.money.set player_id (s.money.getD player_id 0 - TAX_COST)
    let tax_amount := min TAX_EFFECT (money.getD target_id 0)
    (true,
     { s with
        money := money.set target_id (money.getD target_id 0 - tax_amount)
        has_used_tax := s.has_used_tax.set player_id true })

/-- Method `AzroksRepublic.buy_powder_charge`. -/
def buy_powder_charge (s : AzrokState) (player_id : Nat) : Bool × AzrokState :=
  if s.state ≠ AzrokGameState.INVESTMENT_PHASE then (false, s)
  else if some player_id ≠ get_current_player s then (false, s)
  else if s.money.getD player_id 0 < POWDER_CHARGE_COST then (false, s)
  else
    let s := { s with
      money := s.money.set player_id (s.money.getD player_id 0 - POWDER_CHARGE_COST)
      war_failures := s.war_failures + 1 }
    if s.war_failures ≥ MAX_WAR_FAILURES then
      (true, { s with state := AzrokGameState.GAME_WON_DROW })
    else (true, s)

/-- Method `AzroksRepublic.buy_azroks_dagger`. -/
def buy_azroks_dagger (s : AzrokState) (player_id : Nat) : Bool × AzrokState :=
  if s.state ≠ AzrokGameState.INVESTMENT_PHASE then (false, s)
  else if some player_id ≠ get_current_player s then (false, s)
  else if s.money.getD player_id 0 < AZROKS_DAGGER_COST then (false, s)
  else
    (true,
     { s with
        money := s.money.set player_id (s.money.getD player_id 0 - AZROKS_DAGGER_COST)
        state := AzrokGameState.GAME_WON_REPUBLIC })

/-- Method `AzroksRepublic.end_turn`. -/
def end_turn (s : AzrokState) (player_id : Nat) : Bool × AzrokState :=
  if s.state ≠ AzrokGameState.INVESTMENT_PHASE then (false, s)
  else if some player_id ≠ get_current_player s then (false, s)
  else
    let s := { s with current_turn_index := s.current_turn_index + 1 }
    if s.current_turn_index ≥ s.turn_order.length then
      (true, { s with state := AzrokGameState.RESOLUTION_PHASE })
    else (true, s)

/-- Ceiling of `a / 2` over the integers: `math.ceil(pot * card)` where `card`
is the doubled multiplier divided by two.  For every reachable pot the Python
float product `pot * card` is exact, so this is the value the source computes. -/
def ceilHalf (a : Int) : Int := Int.fdiv (a + 1) 2

/-- Steps 2-6 of `AzroksRepublic.resolve_round`: draw a Fruits of Labor card
(falling back to `1.5`, i.e. doubled `3`, on an empty deck), multiply the pot
rounding up, distribute `pot // num_players` to every player and keep the
remainder in the pot, then check for the final round. -/
def resolve_distribute (s : AzrokState) : Bool × AzrokState :=
  let drawn : Nat × List Nat :=
    match s.fruits_deck with
    | [] => (3, [])
    | k :: rest => (k, rest)
  let s := { s with fruits_deck := drawn.2, current_fruits_card := some drawn.1 }
  let pot2 : Int := ceilHalf (s.people_pot * (drawn.1 : Int))
  let share : Int := Int.fdiv pot2 (s.num_players : Int)
  let remainder : Int := pot2 - share * (s.num_players : Int)
  let s := { s with
    money := (List.range s.num_players).map (fun i => s.money.getD i 0 + share)
    people_pot := remainder }
  if s.current_round ≥ MAX_ROUNDS then
    (true, { s with state := AzrokGameState.GAME_WON_REPUBLIC })
  else (true, { s with state := AzrokGameState.ROUND_END })

/-- Method `AzroksRepublic.resolve_round` (success flag and updated state). -/
def resolve_round (s : AzrokState) : Bool × AzrokState :=
  if s.state ≠ AzrokGameState.RESOLUTION_PHASE then (false, s)
  else
    let war_cost := get_war_cost s
    if s.people_pot ≥ war_cost then
      resolve_distribute { s with people_pot := s.people_pot - war_cost }
    else
      let s := { s with people_pot := 0, war_failures := s.war_failures + 1 }
      if s.war_failures ≥ MAX_WAR_FAILURES then
        (true, { s with state := AzrokGameState.GAME_WON_DROW })
      else resolve_distribute s

/-- Projection of `AzroksRepublic.get_player_info`: the Python method returns
`{}` when the player id is unknown, modelled by `none`. -/
structure PlayerInfo where
  player_id : Nat
  sector : String
  role : String
  money : Int
  improvement_level : Nat
  salary : Int
deriving DecidableEq, Repr

/-- Method `AzroksRepublic.get_player_info`. -/
def get_player_info (s : AzrokState) (player_id : Nat) : Option PlayerInfo :=
  if ¬ player_id < s.roles.length then none
  else some
    { player_id := player_id
      sector := s.sectors.getD player_id ""
      role := s.roles.getD player_id ""
      money := s.money.getD player_id 0
      improvement_level := s.improvement_level.getD player_id 0
      salary := BASE_SALARY * (s.improvement_level.getD player_id 0 : Int) }

end Azrok

namespace Scrib

/-- Constant `WORD_LIST` from `team_supreme_scribbles.py`. -/
def WORD_LIST : List String :=
  ["lightsaber", "hoverboard", "flux capacitor", "infinity gauntlet",
   "magic carpet", "sorting hat", "iron throne", "batmobile",
   "kryptonite", "pokeball", "tricorder", "proton pack",
   "golden snitch", "death star", "web shooter",
   "rubber duck", "whoopee cushion", "bubble wrap", "lava lamp",
   "bean bag chair", "disco ball", "fanny pack", "silly string",
   "pool noodle", "snow globe", "jack in the box", "pinwheel",
   "unicorn", "sasquatch", "yeti", "loch ness monster",
   "baby yoda", "pikachu", "minion", "shrek",
   "velociraptor", "t-rex", "narwhal", "sloth",
   "pizza slice", "fortune cookie", "corn dog", "waffle",
   "burrito", "sushi roll", "popsicle", "pretzel",
   "birthday cake", "taco", "donut", "pancake stack",
   "mullet", "monocle", "cactus", "trampoline",
   "jetpack", "treehouse", "hamster wheel", "kazoo",
   "boomerang", "pirate ship", "time machine", "robot butler",
   "space helmet", "roller coaster", "bunk bed", "hammock",
   "cannon", "catapult", "confetti", "megaphone"]

/-- Enum `ScribblesGameState` from `team_supreme_scribbles.py`. -/
inductive ScribblesGameState where
  | WAITING
  | DRAWING
  | ROUND_END
  | GAME_OVER
deriving DecidableEq, Repr

/-- Class constant `MIN_PLAYERS`. -/
def MIN_PLAYERS : Nat := 1

/-- Class constant `DEFAULT_ROUNDS`. -/
def DEFAULT_ROUNDS : Nat := 3

/-- State of a `TeamSupremeScribbles` instance; `scores` is the
`Dict[int, int]` keyed by slot, as a list of length `num_players`. -/
structure ScribState where
  num_players : Nat
  num_rounds : Nat
  state : ScribblesGameState
  current_round : Nat
  current_drawer : Nat
  current_word : Option String
  scores : List Nat
  used_words : List String
  word_list : List String
deriving DecidableEq, Repr

/-- Constructor `TeamSupremeScribbles.__init__`: `none` models the
`ValueError` raised when `num_players < 1`. -/
def init (num_players num_rounds : Nat) : Option ScribState :=
  if num_players < MIN_PLAYERS then none
  else some
    { num_players := num_players
      num_rounds := num_rounds
      state := ScribblesGameState.WAITING
      current_round := 0
      current_drawer := 0
      current_word := none
      scores := List.replicate num_players 0
      used_words := []
      word_list := WORD_LIST }

/-- Method `TeamSupremeScribbles._pick_word`.  `random.choice(available)` is
made explicit by the index `k`: the chosen word is `available[k % len]`, which
ranges over exactly the choices the source can make. -/
def pick_word (s : ScribState) (k : Nat) : ScribState × String :=
  let available := s.word_list.filter (fun w => !(s.used_words.contains w))
  let reset := available.isEmpty
  let used := if reset then [] else s.used_words
  let available := if reset then s.word_list else available
  let word := available.getD (k % available.length) ""
  ({ s with used_words := used ++ [word] }, word)

/-- Result of `TeamSupremeScribbles.start_round`: the dict entries the claims
refer to.  `game_over`/`final_scores` mirror the entries of the game-over
branch (`final_scores = []` stands for an absent entry). -/
structure RoundRes where
  ok : Bool
  game_over : Bool
  final_scores : List Nat
deriving DecidableEq, Repr

/-- Method `TeamSupremeScribbles.start_round` (word choice index `k`, see
`pick_word`). -/
def start_round (s : ScribState) (k : Nat) : RoundRes × ScribState :=
  if s.state = ScribblesGameState.GAME_OVER then
    ({ ok := false, game_over := false, final_scores := [] }, s)
  else if s.state = ScribblesGameState.DRAWING then
    ({ ok := false, game_over := false, final_scores := [] }, s)
  else
    let s :=
      if s.state = ScribblesGameState.WAITING then
        { s with current_drawer := 0, current_round := 1 }
      else
        let d := (s.current_drawer + 1) % s.num_players
        { s with
          current_drawer := d
          current_round := if d = 0 then s.current_round + 1 else s.current_round }
    if s.current_round > s.num_rounds then
      ({ ok := true, game_over := true, final_scores := s.scores },
       { s with state := ScribblesGameState.GAME_OVER })
    else
      let p := pick_word s k
      ({ ok := true, game_over := false, final_scores := [] },
       { p.1 with current_word := some p.2, state := ScribblesGameState.DRAWING })

/-- Method `TeamSupremeScribbles.guess`.  The Python result is
`(correct, message)`; the message is kept because the claims quote it.  In the
correct-guess message the source wraps the word in single quotes, which are
elided here. -/
def guess (s : ScribState) (player_id : Nat) (word : String) :
    (Bool × String) × ScribState :=
  if s.state ≠ ScribblesGameState.DRAWING then
    ((false, "No round in progress"), s)
  else if player_id = s.current_drawer then
    ((false, "The drawer cannot guess"), s)
  else if ¬ player_id < s.scores.length then
    ((false, "Invalid player ID"), s)
  else
    match s.current_word with
    | none => ((false, "No word selected"), s)
    | some cw =>
        if word.trim.toLower = cw.toLower then
          let scores := s.scores.set player_id (s.scores.getD player_id 0 + 1)
          let scores := scores.set s.current_drawer (scores.getD s.current_drawer 0 + 1)
          ((true, "Correct! The word was " ++ cw),
           { s with scores := scores, state := ScribblesGameState.ROUND_END })
        else ((false, "Incorrect guess"), s)

/-- Method `TeamSupremeScribbles.end_drawing` (success flag only; the message
carries the revealed word, which stays in `current_word`). -/
def end_drawing (s : ScribState) : Bool × ScribState :=
  if s.state ≠ ScribblesGameState.DRAWING then (false, s)
  else (true, { s with state := ScribblesGameState.ROUND_END })

/-- Projection of `TeamSupremeScribbles.get_game_info`. -/
structure GameInfo where
  num_players : Nat
  num_rounds : Nat
  current_round : Nat
  state : ScribblesGameState
  current_drawer : Nat
  scores : List Nat
deriving DecidableEq, Repr

/-- Method `TeamSupremeScribbles.get_game_info`. -/
def get_game_info (s : ScribState) : GameInfo :=
  { num_players := s.num_players
    num_rounds := s.num_rounds
    current_round := s.current_round
    state := s.state
    current_drawer := s.current_drawer
    scores := s.scores }

/-- Method `TeamSupremeScribbles.get_drawer_info`. -/
def get_drawer_info (s : ScribState) : Nat × Option String :=
  (s.current_drawer, s.current_word)

/-- States of a drawing-and-guessing game reachable through its interface
from a game created with `num_players` players and `num_rounds` rounds. -/
inductive Reachable (num_players num_rounds : Nat) : ScribState → Prop where
  | init (s : ScribState) : init num_players num_rounds = some s →
      Reachable num_players num_rounds s
  | start (s : ScribState) (k : Nat) : Reachable num_players num_rounds s →
      Reachable num_players num_rounds (start_round s k).2
  | guessStep (s : ScribState) (pid : Nat) (w : String) :
      Reachable num_players num_rounds s →
      Reachable num_players num_rounds (guess s pid w).2
  | endD (s : ScribState) : Reachable num_players num_rounds s →
      Reachable num_players num_rounds (end_drawing s).2

end Scrib

namespace Server

/-- Outcome of `GameServer.create_room` / `GameServer._handle_create_room` on
a server whose room table currently holds the identifiers `rooms`: either an
error is reported to the caller and the table is unchanged, or the new room
identifier is appended.  `num_players` is an `Int`, as the handler accepts any
client-supplied integer. -/
def create_room (rooms : List String) (room_id : String) (num_players : Int)
    (game_type : String) : Except String (List String) :=
  if rooms.contains room_id then
    Except.error ("Room " ++ room_id ++ " already exists")
  else if game_type = "team_supreme_scribbles" then
    if num_players < 1 then Except.error "Number of players must be at least 1"
    else Except.ok (rooms ++ [room_id])
  else
    if ¬ (2 ≤ num_players ∧ num_players ≤ 4) then
      Except.error "Number of players must be 2-4"
    else Except.ok (rooms ++ [room_id])

/-- Handler `GameServer._handle_create_room`: rejects a blank room
identifier, then calls `create_room` and reports its `ValueError` as an error
message.  The handler applies `.strip()` to the client-supplied identifier
before both checks; `room_id` here is that already-stripped string. -/
def handle_create_room (rooms : List String) (room_id : String)
    (num_players : Int) (game_type : String) : Except String (List String) :=
  if room_id = "" then Except.error "Room ID is required"
  else create_room rooms room_id num_players game_type

/-- Engine construction performed in `_handle_join_room` when a room reaches
capacity: the room's `game_type` selects which engine class is instantiated
with the room's `num_players` (every `game_type` other than the two special
ones falls through to `TheMind`).  `none` models an engine constructor
raising `ValueError`. -/
def engine_for (game_type : String) (num_players : Nat) : Bool :=
  if game_type = "azroks_republic" then (Azrok.init num_players).isSome
  else if game_type = "team_supreme_scribbles" then
    (Scrib.init num_players Scrib.DEFAULT_ROUNDS).isSome
  else (TheMind.init num_players).isSome

/-- Handler `GameServer._handle_next_level`: invokes the card engine's
`setup_level` only when the engine state is `LEVEL_COMPLETE`; in any other
state the message does nothing and nothing is reported back. -/
def handle_next_level (s : TheMind.MindState) (deck : List Nat) : TheMind.MindState :=
  if s.state = TheMind.GameState.LEVEL_COMPLETE then TheMind.setup_level s deck
  else s

end Server

namespace Scrib

/-- Concrete three-player, two-round game (the value of
`TeamSupremeScribbles(3, 2)`). -/
def scrib32 : ScribState :=
  { num_players := 3
    num_rounds := 2
    state := ScribblesGameState.WAITING
    current_round := 0
    current_drawer := 0
    current_word := none
    scores := [0, 0, 0]
    used_words := []
    word_list := WORD_LIST }

/-- One round of the concrete trace for claim C8: `start_round` (first
available word) followed by `end_drawing`. -/
def cycle (s : ScribState) : ScribState :=
  (end_drawing (start_round s 0).2).2

end Scrib

/-- Concrete one-player game (the value of `TeamSupremeScribbles(1)` with the
default three rounds). -/
def scrib11 : Scrib.ScribState :=
  { num_players := 1
    num_rounds := 3
    state := Scrib.ScribblesGameState.WAITING
    current_round := 0
    current_drawer := 0
    current_word := none
    scores := [0]
    used_words := []
    word_list := Scrib.WORD_LIST }

/-! Concrete states and drivers used by the theorems below. -/

/-- Witness for C4, the spec's worked example: four players, round 1 (war
cost 4), pot 10, next multiplier 1.5 (doubled: 3): the pot after the cost is
6, `ceil(6 * 1.5) = 9`, each of the four balances increases by `9 / 4 = 2`,
and the pot keeps the remainder 1. -/
def potExample : Azrok.AzrokState :=
  { num_players := 4
    state := Azrok.AzrokGameState.RESOLUTION_PHASE
    current_round := 1
    sectors := Azrok.SECTORS
    roles := ["Brother of the Republic", "Brother of the Republic",
              "Agent of the Drow", "Agent of the Drow"]
    money := [0, 0, 0, 0]
    improvement_level := [1, 1, 1, 1]
    general_secretary := 0
    turn_order := [0, 1, 2, 3]
    current_turn_index := 4
    has_used_tax := [false, false, false, false]
    people_pot := 10
    war_failures := 0
    fruits_deck := [3]
    current_fruits_card := none }

/-- Witness for C5, the spec's tax-clamping example: the actor (slot 0, the
current player) has balance 5, the target (slot 1) has balance 1; after
`use_tax` exactly 1 is transferred, the target holds 0 and the actor paid
the fixed cost 1. -/
def taxExample : Azrok.AzrokState :=
  { potExample with
      state := Azrok.AzrokGameState.INVESTMENT_PHASE
      current_turn_index := 0
      money := [5, 1, 0, 7] }

/-- Player actions of the economy engine, used to drive a concrete game. -/
inductive AzAct where
  | startR (dice : Nat)
  | invest (pid : Nat) (amount : Int)
  | endTurn (pid : Nat)
  | resolve
deriving DecidableEq, Repr

/-- Apply one action to an economy-engine state (result flag dropped). -/
def azStep (s : Azrok.AzrokState) : AzAct → Azrok.AzrokState
  | AzAct.startR d => (Azrok.start_round s d).2
  | AzAct.invest p a => (Azrok.invest_people s p a).2
  | AzAct.endTurn p => (Azrok.end_turn s p).2
  | AzAct.resolve => (Azrok.resolve_round s).2

/-- Run a list of actions on an economy-engine state. -/
def azRun (s : Azrok.AzrokState) (acts : List AzAct) : Azrok.AzrokState :=
  acts.foldl azStep s

/-- One investment round of the concrete game below: `start_round` with dice
roll 1 (secretary 0, so turn order `[0,1,2,3]`), the given investments made
on their owners' turns, all four turns ended, and the round resolved. -/
def azRound (inv : List (Nat × Int)) : List AzAct :=
  AzAct.startR 1 ::
    ((List.range 4).map (fun p =>
      ((inv.filter (fun q => q.1 = p)).map (fun q => AzAct.invest q.1 q.2)) ++
        [AzAct.endTurn p])).flatten ++ [AzAct.resolve]

/-- A full, legal ten-round game of `AzroksRepublic`: rounds 1 and 2 are
deliberately unfunded (war failures 1 and 2), rounds 3 through 9 are funded
with exactly the war cost, and in round 10 nobody invests.  The state below
is reached just before the final `resolve_round` call. -/
def azFinal : Azrok.AzrokState :=
  azRun
    (Azrok.setup_game ((Azrok.init 4).getD potExample)
      ["Brother of the Republic", "Brother of the Republic",
       "Agent of the Drow", "Agent of the Drow"] 0 Azrok.FRUITS_OF_LABOR_DECK)
    ((azRound [] ++ azRound [] ++ azRound [(0, 4)] ++ azRound [(1, 8)] ++
      azRound [(2, 8)] ++ azRound [(3, 8)] ++ azRound [(0, 10), (1, 2)] ++
      azRound [(2, 8), (3, 4)] ++ azRound [(1, 8), (3, 4)]) ++
      [AzAct.startR 1, AzAct.endTurn 0, AzAct.endTurn 1, AzAct.endTurn 2,
       AzAct.endTurn 3])

/-- A concrete mid-game state of the card engine (the fixture of
`test_the_mind.test_game_lost`, with full lives): pile top 10, slot 0 still
holding the lower card 5. -/
def mindOO : TheMind.MindState :=
  { TheMind.mind2 with
      state := TheMind.GameState.IN_PROGRESS
      player_hands := [[5], [30]]
      played_pile := [10] }

/-- A terminal (lost) card-engine state: the `test_game_lost` fixture after
the losing play. -/
def mindLost : TheMind.MindState :=
  { mindOO with lives := 0, state := TheMind.GameState.GAME_LOST }

/-- Witness for claim C1, the spec's skip-detection example: hands
`{0:[30], 1:[20]}` with an empty pile; playing 30 from slot 0 succeeds,
discards 20 from slot 1, costs exactly one life and leaves both hands
empty. -/
def skipExample : TheMind.MindState :=
  { TheMind.mind2 with
      state := TheMind.GameState.IN_PROGRESS
      player_hands := [[30], [20]] }

/-- The invariant carried through every reachable state of the card engine:
hand count and level bounds, plus the card-accounting equation whenever the
state tag is `IN_PROGRESS`, `GAME_WON` or `GAME_LOST`. -/
def MindInv (s : TheMind.MindState) : Prop :=
  s.player_hands.length = s.num_players ∧
  s.num_players ≤ 4 ∧
  1 ≤ s.current_level ∧
  s.current_level ≤ 12 ∧
  ((s.state = TheMind.GameState.IN_PROGRESS ∨
    s.state = TheMind.GameState.GAME_WON ∨
    s.state = TheMind.GameState.GAME_LOST) →
    s.played_pile.length + s.discarded_cards.length +
        (s.player_hands.map (fun h => h.length)).sum =
      s.current_level * s.num_players)

/-- A reachable level-complete state violating the card-accounting equation:
a fresh two-player game is dealt from the identity permutation (hands
`[[100]]` and `[[99]]`), slot 0 plays 100 (skipping 99), the level completes,
and the level counter moves to 2 while only `1 × 2` cards exist. -/
def mindLC : TheMind.MindState :=
  (TheMind.play_card
    (TheMind.setup_level TheMind.mind2 (List.range' 1 100)) 0 100).2

/-! Small helper lemmas about list indexing used by several theorems below. -/

theorem getD_map_range {α : Type} (f : Nat → α) {n i : Nat} (d : α) (h : i < n) :
    ((List.range n).map f).getD i d = f i := by
  simp [List.getD_eq_getElem?_getD, List.getElem?_map, List.getElem?_range h]

theorem getD_set_self {α : Type} {l : List α} {i : Nat} (v d : α) (h : i < l.length) :
    (l.set i v).getD i d = v := by
  simp [List.getD_eq_getElem?_getD, List.getElem?_set_self, h]

theorem getD_set_ne {α : Type} {l : List α} {i j : Nat} (v d : α) (h : i ≠ j) :
    (l.set i v).getD j d = l.getD j d := by
  simp [List.getD_eq_getElem?_getD, List.getElem?_set_ne h]

theorem lt_length_of_getD_pos {l : List Int} {i : Nat} (h : 1 ≤ l.getD i 0) :
    i < l.length := by
  by_contra hc
  rw [List.getD_eq_getElem?_getD, List.getElem?_eq_none (by omega)] at h
  simp at h

/-! ## Claim C4: pot resolution arithmetic of the economy engine -/

/-- Behaviour of steps 2-6 of `resolve_round` (card draw, multiply rounding
up, even division rounding down, remainder kept in the pot). -/
theorem resolve_distribute_spec (s : Azrok.AzrokState) :
    (Azrok.resolve_distribute s).1 = true ∧
    (Azrok.resolve_distribute s).2.money =
      (List.range s.num_players).map (fun i =>
        s.money.getD i 0 +
          Int.fdiv
            (Azrok.ceilHalf (s.people_pot *
              ((match s.fruits_deck with | [] => 3 | k :: _ => k) : Nat)))
            (s.num_players : Int)) ∧
    (Azrok.resolve_distribute s).2.people_pot =
      Azrok.ceilHalf (s.people_pot *
          ((match s.fruits_deck with | [] => 3 | k :: _ => k) : Nat)) -
        Int.fdiv
          (Azrok.ceilHalf (s.people_pot *
            ((match s.fruits_deck with | [] => 3 | k :: _ => k) : Nat)))
          (s.num_players : Int) * (s.num_players : Int) := by
  cases h : s.fruits_deck <;>
    · simp only [Azrok.resolve_distribute, h]
      split <;> simp

/-- Claim C4: in the economy engine, when `resolve_round` is called in the
resolution phase and the pot covers the war cost `c` (which is
`num_players` times 1, 2 or 3 according to the round tier), the pot is
multiplied after the cost: with drawn (doubled) multiplier `m` the product
`ceil((pot - c) * m/2)` is computed, every player's balance increases by
exactly its floor division by `num_players`, and the remainder (product
minus the distributed shares) stays in the pot, never discarded. -/
theorem C4_pot_resolution (s : Azrok.AzrokState)
    (hphase : s.state = Azrok.AzrokGameState.RESOLUTION_PHASE)
    (hcover : Azrok.get_war_cost s ≤ s.people_pot) :
    (Azrok.resolve_round s).1 = true ∧
    Azrok.get_war_cost s =
      (if s.current_round ≤ 3 then 1
       else if s.current_round ≤ 6 then 2 else 3) * (s.num_players : Int) ∧
    (∀ i, i < s.num_players →
      (Azrok.resolve_round s).2.money.getD i 0 =
        s.money.getD i 0 +
          Int.fdiv
            (Azrok.ceilHalf ((s.people_pot - Azrok.get_war_cost s) *
              ((match s.fruits_deck with | [] => 3 | k :: _ => k) : Nat)))
            (s.num_players : Int)) ∧
    (Azrok.resolve_round s).2.people_pot =
      Azrok.ceilHalf ((s.people_pot - Azrok.get_war_cost s) *
          ((match s.fruits_deck with | [] => 3 | k :: _ => k) : Nat)) -
        Int.fdiv
          (Azrok.ceilHalf ((s.people_pot - Azrok.get_war_cost s) *
            ((match s.fruits_deck with | [] => 3 | k :: _ => k) : Nat)))
          (s.num_players : Int) * (s.num_players : Int) := by
  have hr : Azrok.resolve_round s =
      Azrok.resolve_distribute { s with people_pot := s.people_pot - Azrok.get_war_cost s } := by
    simp only [Azrok.resolve_round, hphase]
    simp [ge_iff_le, hcover]
  have hd := resolve_distribute_spec { s with people_pot := s.people_pot - Azrok.get_war_cost s }
  refine ⟨by rw [hr]; exact hd.1, by simp [Azrok.get_war_cost], ?_, by rw [hr]; exact hd.2.2⟩
  intro i hi
  rw [hr, hd.2.1, getD_map_range _ _ hi]

/-- Witness for claim C4 at the spec's concrete example. -/
theorem C4_pot_resolution_witness :
    (Azrok.resolve_round potExample).1 = true ∧
    (Azrok.resolve_round potExample).2.money.getD 0 0 = 2 ∧
    (Azrok.resolve_round potExample).2.money.getD 1 0 = 2 ∧
    (Azrok.resolve_round potExample).2.money.getD 2 0 = 2 ∧
    (Azrok.resolve_round potExample).2.money.getD 3 0 = 2 ∧
    (Azrok.resolve_round potExample).2.people_pot = 1 := by
  obtain ⟨h1, h2, h3, h4⟩ := C4_pot_resolution potExample rfl (by decide)
  refine ⟨h1, ?_, ?_, ?_, ?_, ?_⟩
  · rw [h3 0 (by decide)]; decide
  · rw [h3 1 (by decide)]; decide
  · rw [h3 2 (by decide)]; decide
  · rw [h3 3 (by decide)]; decide
  · rw [h4]; decide

/-! ## Claim C5: tax clamping in the economy engine -/

/-- Claim C5: whenever `use_tax` succeeds (investment phase, actor is the
current player, has not yet taxed this turn, target is a different valid
player, actor balance at least the tax cost 1), exactly
`min(TAX_EFFECT, target balance)` is removed from the target — so a
non-negative target balance becomes `max(0, balance - 2)` and is never
negative — while the actor pays the fixed tax cost 1 regardless of the
amount actually removed, and no other balance changes. -/
theorem C5_tax_clamping (s : Azrok.AzrokState) (actor target : Nat)
    (hphase : s.state = Azrok.AzrokGameState.INVESTMENT_PHASE)
    (hcur : Azrok.get_current_player s = some actor)
    (htax : s.has_used_tax.getD actor false = false)
    (hne : actor ≠ target)
    (hvalid : target < s.money.length)
    (hbal : 1 ≤ s.money.getD actor 0)
    (htnn : 0 ≤ s.money.getD target 0) :
    (Azrok.use_tax s actor target).1 = true ∧
    (Azrok.use_tax s actor target).2.money.getD target 0 =
      s.money.getD target 0 - min 2 (s.money.getD target 0) ∧
    (Azrok.use_tax s actor target).2.money.getD target 0 =
      max 0 (s.money.getD target 0 - 2) ∧
    0 ≤ (Azrok.use_tax s actor target).2.money.getD target 0 ∧
    (Azrok.use_tax s actor target).2.money.getD actor 0 =
      s.money.getD actor 0 - 1 ∧
    (∀ i, i ≠ actor → i ≠ target →
      (Azrok.use_tax s actor target).2.money.getD i 0 = s.money.getD i 0) := by
  have hact : actor < s.money.length := lt_length_of_getD_pos hbal
  have hres : Azrok.use_tax s actor target =
      (true,
       { s with
          money := (s.money.set actor (s.money.getD actor 0 - Azrok.TAX_COST)).set target
            ((s.money.set actor (s.money.getD actor 0 - Azrok.TAX_COST)).getD target 0 -
              min Azrok.TAX_EFFECT
                ((s.money.set actor (s.money.getD actor 0 - Azrok.TAX_COST)).getD target 0))
          has_used_tax := s.has_used_tax.set actor true }) := by
    have h1 : ¬ s.state ≠ Azrok.AzrokGameState.INVESTMENT_PHASE := by simp [hphase]
    have h2 : ¬ some actor ≠ Azrok.get_current_player s := by simp [hcur]
    have h3 : ¬ s.has_used_tax.getD actor false = true := by
      rw [htax]; exact Bool.false_ne_true
    have h5 : ¬ ¬ target < s.money.length := not_not_intro hvalid
    have h6 : ¬ s.money.getD actor 0 < Azrok.TAX_COST := by
      simp only [Azrok.TAX_COST]; omega
    simp only [Azrok.use_tax, if_neg h1, if_neg h2, if_neg h3, if_neg hne,
      if_neg h5, if_neg h6]
  have hgt : (s.money.set actor (s.money.getD actor 0 - Azrok.TAX_COST)).getD target 0 =
      s.money.getD target 0 := getD_set_ne _ _ hne
  rw [hres]
  refine ⟨rfl, ?_, ?_, ?_, ?_, ?_⟩
  · simp only []
    rw [getD_set_self _ _ (by simpa using hvalid), hgt]
    rfl
  · simp only []
    rw [getD_set_self _ _ (by simpa using hvalid), hgt]
    show s.money.getD target 0 - min 2 (s.money.getD target 0) = _
    omega
  · simp only []
    rw [getD_set_self _ _ (by simpa using hvalid), hgt]
    show 0 ≤ s.money.getD target 0 - min 2 (s.money.getD target 0)
    omega
  · simp only []
    rw [getD_set_ne _ _ (Ne.symm hne), getD_set_self _ _ hact]
    rfl
  · intro i hia hit
    simp only []
    rw [getD_set_ne _ _ (Ne.symm hit), getD_set_ne _ _ (Ne.symm hia)]

/-- Witness for claim C5 at a concrete state. -/
theorem C5_tax_clamping_witness :
    (Azrok.use_tax taxExample 0 1).1 = true ∧
    (Azrok.use_tax taxExample 0 1).2.money.getD 1 0 = 0 ∧
    (Azrok.use_tax taxExample 0 1).2.money.getD 0 0 = 4 ∧
    (Azrok.use_tax taxExample 0 1).2.money.getD 3 0 = 7 := by
  obtain ⟨h1, h2, _, _, h5, h6⟩ :=
    C5_tax_clamping taxExample 0 1 rfl (by decide) (by decide) (by decide)
      (by decide) (by decide) (by decide)
  exact ⟨h1, by rw [h2]; decide, by rw [h5]; decide,
    by rw [h6 3 (by decide) (by decide)]; decide⟩

/-! ## Claim C9: room-creation validation -/

/-- Counterexample to claim C9 as stated: the server accepts an
economy-game room with 2 players (so the bound it checks is the 2..4 range,
not the economy engine's fixed count of 4), and when such a room fills the
engine constructor fails (`AzroksRepublic.__init__` raises `ValueError`);
the card-game bound is likewise a range, since rooms with 2 and with 3
players are both accepted. -/
theorem C9_room_validation_cex :
    Server.handle_create_room [] "room1" 2 "azroks_republic" =
      Except.ok ["room1"] ∧
    Azrok.init 2 = none ∧
    Server.engine_for "azroks_republic" 2 = false ∧
    Server.handle_create_room [] "room1" 2 "the_mind" = Except.ok ["room1"] ∧
    Server.handle_create_room [] "room1" 3 "the_mind" = Except.ok ["room1"] := by
  refine ⟨rfl, rfl, rfl, rfl, rfl⟩

/-- Claim C9 (amended): room creation rejects, with an error and no room
created, a blank (stripped) identifier, a duplicate identifier, and a
`num_players` outside the server's bounds — at least 1 for the drawing game
and the 2..4 range for every other game type, the card game included; a
drawing-game or card-game room that passes validation constructs its engine
without error when it fills, but for the economy game the server's 2..4
bound does not match the engine's fixed count of 4, so an accepted
economy-game room constructs its engine successfully only when
`num_players` is exactly 4. -/
theorem C9_room_validation (rooms : List String) (rid : String) (n : Int)
    (gt : String) :
    (Server.handle_create_room rooms "" n gt =
      Except.error "Room ID is required") ∧
    (rid ≠ "" → rooms.contains rid →
      Server.handle_create_room rooms rid n gt =
        Except.error ("Room " ++ rid ++ " already exists")) ∧
    (rid ≠ "" → ¬ rooms.contains rid → gt = "team_supreme_scribbles" → n < 1 →
      Server.handle_create_room rooms rid n gt =
        Except.error "Number of players must be at least 1") ∧
    (rid ≠ "" → ¬ rooms.contains rid → gt ≠ "team_supreme_scribbles" →
      ¬ (2 ≤ n ∧ n ≤ 4) →
      Server.handle_create_room rooms rid n gt =
        Except.error "Number of players must be 2-4") ∧
    (rid ≠ "" → ¬ rooms.contains rid → gt = "team_supreme_scribbles" → 1 ≤ n →
      Server.handle_create_room rooms rid n gt = Except.ok (rooms ++ [rid]) ∧
      Server.engine_for gt n.toNat = true) ∧
    (rid ≠ "" → ¬ rooms.contains rid → gt ≠ "team_supreme_scribbles" →
      2 ≤ n → n ≤ 4 →
      Server.handle_create_room rooms rid n gt = Except.ok (rooms ++ [rid]) ∧
      (gt ≠ "azroks_republic" → Server.engine_for gt n.toNat = true) ∧
      (gt = "azroks_republic" →
        (Server.engine_for gt n.toNat = true ↔ n = 4))) := by
  refine ⟨?_, ?_, ?_, ?_, ?_, ?_⟩
  · simp [Server.handle_create_room]
  · intro hrid hdup
    show (if rid = "" then _ else Server.create_room rooms rid n gt) = _
    rw [if_neg hrid]
    show (if rooms.contains rid then _ else _) = _
    rw [if_pos hdup]
  · intro hrid hdup hgt hn
    show (if rid = "" then _ else Server.create_room rooms rid n gt) = _
    rw [if_neg hrid]
    show (if rooms.contains rid then _ else _) = _
    rw [if_neg hdup, if_pos hgt, if_pos hn]
  · intro hrid hdup hgt hn
    show (if rid = "" then _ else Server.create_room rooms rid n gt) = _
    rw [if_neg hrid]
    show (if rooms.contains rid then _ else _) = _
    rw [if_neg hdup, if_neg hgt, if_pos hn]
  · intro hrid hdup hgt hn
    subst hgt
    refine ⟨?_, ?_⟩
    · show (if rid = "" then _
          else Server.create_room rooms rid n "team_supreme_scribbles") = _
      rw [if_neg hrid]
      show (if rooms.contains rid then _ else _) = _
      rw [if_neg hdup, if_pos rfl, if_neg (by omega : ¬ n < 1)]
    · show (if ("team_supreme_scribbles" : String) = "azroks_republic" then _
          else if ("team_supreme_scribbles" : String) = "team_supreme_scribbles" then
            (Scrib.init n.toNat Scrib.DEFAULT_ROUNDS).isSome
          else (TheMind.init n.toNat).isSome) = true
      rw [if_neg (by decide), if_pos rfl]
      show (if n.toNat < Scrib.MIN_PLAYERS then (none : Option Scrib.ScribState)
          else some _).isSome = true
      rw [if_neg (by simp only [Scrib.MIN_PLAYERS]; omega)]
      rfl
  · intro hrid hdup hgt hn2 hn4
    have hok : Server.handle_create_room rooms rid n gt = Except.ok (rooms ++ [rid]) := by
      show (if rid = "" then _ else Server.create_room rooms rid n gt) = _
      rw [if_neg hrid]
      show (if rooms.contains rid then _ else _) = _
      rw [if_neg hdup, if_neg hgt, if_neg (not_not_intro ⟨hn2, hn4⟩)]
    refine ⟨hok, ?_, ?_⟩
    · intro haz
      simp only [Server.engine_for, if_neg haz, if_neg hgt]
      have : n = 2 ∨ n = 3 ∨ n = 4 := by omega
      rcases this with h | h | h <;> subst h <;> decide
    · intro haz
      subst haz
      simp only [Server.engine_for, if_pos rfl]
      constructor
      · intro h
        have : n = 2 ∨ n = 3 ∨ n = 4 := by omega
        rcases this with h2 | h2 | h2 <;> subst h2 <;> first | rfl | exact absurd h (by decide)
      · intro h
        subst h
        decide

/-- Witness for claim C9 (amended) at concrete inputs: a valid drawing-game
room with one player is accepted and its engine constructs, and an accepted
economy-game room with 2 players fails engine construction. -/
theorem C9_room_validation_witness :
    (Server.handle_create_room [] "draw" 1 "team_supreme_scribbles" =
      Except.ok ["draw"] ∧
      Server.engine_for "team_supreme_scribbles" 1 = true) ∧
    (Server.handle_create_room [] "az" 2 "azroks_republic" =
      Except.ok ["az"] ∧
      Server.engine_for "azroks_republic" 2 = false) := by
  constructor
  · exact (C9_room_validation [] "draw" 1 "team_supreme_scribbles").2.2.2.2.1
      (by decide) (by decide) rfl (by decide)
  · obtain ⟨hok, _, hiff⟩ :=
      (C9_room_validation [] "az" 2 "azroks_republic").2.2.2.2.2
        (by decide) (by decide) (by decide) (by decide) (by decide)
    refine ⟨hok, ?_⟩
    have := hiff rfl
    by_contra hc
    have hb : Server.engine_for "azroks_republic" 2 = true := by
      revert hc
      cases Server.engine_for "azroks_republic" 2 <;> simp
    exact absurd (this.mp hb) (by decide)

/-! ## Claim C6: final-round resolution of the economy engine -/

set_option maxRecDepth 100000 in
/-- Counterexample to claim C6 as stated: in the reachable state `azFinal`
the game is in the resolution phase of the final round 10 with two war
failures and an empty pot; `resolve_round` then records the third
war-funding failure and ends the game in the Drow (antagonist) victory
state, not the Republic victory state, because the failure check returns
before the final-round check. -/
theorem C6_final_round_cex :
    azFinal.current_round = 10 ∧
    azFinal.state = Azrok.AzrokGameState.RESOLUTION_PHASE ∧
    azFinal.war_failures = 2 ∧
    azFinal.people_pot = 0 ∧
    (Azrok.resolve_round azFinal).2.state = Azrok.AzrokGameState.GAME_WON_DROW ∧
    (Azrok.resolve_round azFinal).2.state ≠ Azrok.AzrokGameState.GAME_WON_REPUBLIC := by
  refine ⟨by decide, by decide, by decide, by decide, by decide, by decide⟩

/-- Claim C6 (amended): if `resolve_round` runs during the final round
(round 10), the game ends in the Republic victory state — unless that same
call records a war-funding failure (pot short of the war cost) that raises
the antagonist failure count to its limit of 3, in which case the game ends
in the Drow victory state instead. -/
theorem C6_final_round (s : Azrok.AzrokState)
    (hphase : s.state = Azrok.AzrokGameState.RESOLUTION_PHASE)
    (hfinal : s.current_round = 10)
    (hnd : ¬ (s.people_pot < Azrok.get_war_cost s ∧
      Azrok.MAX_WAR_FAILURES ≤ s.war_failures + 1)) :
    (Azrok.resolve_round s).1 = true ∧
    (Azrok.resolve_round s).2.state = Azrok.AzrokGameState.GAME_WON_REPUBLIC := by
  by_cases hc : Azrok.get_war_cost s ≤ s.people_pot
  · have hr : Azrok.resolve_round s =
        Azrok.resolve_distribute { s with people_pot := s.people_pot - Azrok.get_war_cost s } := by
      simp only [Azrok.resolve_round, hphase]
      simp [ge_iff_le, hc]
    rw [hr]
    cases hdk : ({ s with people_pot := s.people_pot - Azrok.get_war_cost s} : Azrok.AzrokState).fruits_deck <;>
      · simp only [Azrok.resolve_distribute, hdk]
        rw [if_pos (by simp [hfinal, Azrok.MAX_ROUNDS])]
        exact ⟨rfl, rfl⟩
  · have hlt : s.people_pot < Azrok.get_war_cost s := by omega
    have hwf : ¬ Azrok.MAX_WAR_FAILURES ≤ s.war_failures + 1 := fun h => hnd ⟨hlt, h⟩
    have hr : Azrok.resolve_round s =
        Azrok.resolve_distribute { s with people_pot := 0, war_failures := s.war_failures + 1 } := by
      simp only [Azrok.resolve_round, hphase]
      rw [if_neg (by simp), if_neg (by omega), if_neg (by simpa using hwf)]
    rw [hr]
    cases hdk : ({ s with people_pot := 0, war_failures := s.war_failures + 1 } : Azrok.AzrokState).fruits_deck <;>
      · simp only [Azrok.resolve_distribute, hdk]
        rw [if_pos (by simp [hfinal, Azrok.MAX_ROUNDS])]
        exact ⟨rfl, rfl⟩

/-! ## Claim C1: in-order card play with skip-detection -/

/-- Field-level description of `TheMind._handle_skipped_cards`: the hands are
filtered, the skipped cards appended to the discard pile, one life is lost
exactly when some card was skipped, and nothing else changes. -/
theorem handle_skipped_spec (s : TheMind.MindState) (t c : Nat) :
    (TheMind.handle_skipped_cards s t c).2.player_hands =
      TheMind.dropSkipped t c s.player_hands ∧
    (TheMind.handle_skipped_cards s t c).2.discarded_cards =
      s.discarded_cards ++ TheMind.skippedCards t c s.player_hands ∧
    (TheMind.handle_skipped_cards s t c).2.played_pile = s.played_pile ∧
    (TheMind.handle_skipped_cards s t c).2.current_level = s.current_level ∧
    (TheMind.handle_skipped_cards s t c).2.num_players = s.num_players ∧
    (TheMind.handle_skipped_cards s t c).2.lives =
      s.lives - (if TheMind.skippedCards t c s.player_hands = [] then 0 else 1) ∧
    (TheMind.handle_skipped_cards s t c).1 =
      !(decide (TheMind.skippedCards t c s.player_hands = [])) := by
  by_cases hsk : TheMind.skippedCards t c s.player_hands = []
  · simp [TheMind.handle_skipped_cards, hsk]
  · simp only [TheMind.handle_skipped_cards, if_neg hsk]
    split <;> simp [hsk]

/-- Field-level description of `TheMind._complete_level`: only the state tag
and the level counter change. -/
theorem complete_level_spec (s : TheMind.MindState) :
    (TheMind.complete_level s).player_hands = s.player_hands ∧
    (TheMind.complete_level s).discarded_cards = s.discarded_cards ∧
    (TheMind.complete_level s).played_pile = s.played_pile ∧
    (TheMind.complete_level s).lives = s.lives ∧
    (TheMind.complete_level s).num_players = s.num_players := by
  simp only [TheMind.complete_level]
  split <;> exact ⟨rfl, rfl, rfl, rfl, rfl⟩

/-- No card was skipped by a play of `c` iff no hand held a card strictly
between the bounds: removing the played card first does not matter, because
the played card is never strictly below itself. -/
theorem skipped_empty_iff (hands : List (List Nat)) (pid c t : Nat)
    (hpid : pid < hands.length) (hcard : c ∈ hands.getD pid []) :
    (TheMind.skippedCards t c (hands.set pid ((hands.getD pid []).erase c)) = [] ↔
      ∀ j, j < hands.length → ∀ x ∈ hands.getD j [], ¬ (t < x ∧ x < c)) := by
  have hmem : ∀ (L : List (List Nat)),
      (TheMind.skippedCards t c L = [] ↔ ∀ h ∈ L, ∀ x ∈ h, ¬ (t < x ∧ x < c)) := by
    intro L
    unfold TheMind.skippedCards
    rw [List.flatten_eq_nil_iff]
    constructor
    · intro hh h hhL x hx hpx
      have := hh (h.filter (fun x => decide (t < x ∧ x < c)))
        (List.mem_map_of_mem _ hhL)
      have hxf : x ∈ h.filter (fun x => decide (t < x ∧ x < c)) := by
        rw [List.mem_filter]
        exact ⟨hx, by simpa using hpx⟩
      rw [this] at hxf
      exact absurd hxf (List.not_mem_nil x)
    · intro hh y hy
      rw [List.mem_map] at hy
      obtain ⟨h, hhL, rfl⟩ := hy
      rw [List.filter_eq_nil_iff]
      intro x hx
      simpa using hh h hhL x hx
  rw [hmem]
  constructor
  · intro hall j hj x hx hpx
    by_cases hjp : j = pid
    · subst hjp
      have hxc : x ≠ c := by omega
      have hxe : x ∈ (hands.getD j []).erase c := (List.mem_erase_of_ne hxc).mpr hx
      have hset : (hands.getD j []).erase c ∈ hands.set j ((hands.getD j []).erase c) := by
        have hlen : j < (hands.set j ((hands.getD j []).erase c)).length := by
          rw [List.length_set]; exact hj
        have := List.getElem_mem hlen
        rwa [List.getElem_set_eq (by rw [List.length_set]; exact hj)] at this
      exact hall _ hset x hxe hpx
    · have hset : hands.getD j [] ∈ hands.set pid ((hands.getD pid []).erase c) := by
        have hlen : j < (hands.set pid ((hands.getD pid []).erase c)).length := by
          rw [List.length_set]; exact hj
        have h1 : (hands.set pid ((hands.getD pid []).erase c)).getD j [] =
            hands.getD j [] := getD_set_ne _ _ (fun h => hjp h.symm)
        rw [← h1, List.getD_eq_getElem _ [] hlen]
        exact List.getElem_mem hlen
      exact hall _ hset x hx hpx
  · intro hall h hh x hx hpx
    rcases List.mem_or_eq_of_mem_set hh with hh' | rfl
    · obtain ⟨j, hj, rfl⟩ := List.mem_iff_getElem.mp hh'
      exact hall j hj x (by rwa [List.getD_eq_getElem hands [] hj]) hpx
    · exact hall pid hpid x (List.mem_of_mem_erase hx) hpx

/-- Claim C1: an in-order play of card `c` (previous pile top `t ≤ c`, `c`
in the player's hand, game in progress) succeeds; `c` moves from that hand
to the top of the pile; every card strictly between `t` and `c` in every
hand is discarded ("skipped"); and exactly one life is lost iff at least one
such in-between card existed (zero lives otherwise). -/
theorem C1_in_order_play (s : TheMind.MindState) (pid c : Nat)
    (hst : s.state = TheMind.GameState.IN_PROGRESS)
    (hpid : pid < s.player_hands.length)
    (hcard : c ∈ s.player_hands.getD pid [])
    (hord : TheMind.lastPlayed s.played_pile ≤ c) :
    (TheMind.play_card s pid c).1 = true ∧
    (TheMind.play_card s pid c).2.played_pile = s.played_pile ++ [c] ∧
    (TheMind.play_card s pid c).2.player_hands =
      TheMind.dropSkipped (TheMind.lastPlayed s.played_pile) c
        (s.player_hands.set pid ((s.player_hands.getD pid []).erase c)) ∧
    (TheMind.play_card s pid c).2.discarded_cards =
      s.discarded_cards ++
        TheMind.skippedCards (TheMind.lastPlayed s.played_pile) c
          (s.player_hands.set pid ((s.player_hands.getD pid []).erase c)) ∧
    (TheMind.play_card s pid c).2.lives =
      s.lives -
        (if TheMind.skippedCards (TheMind.lastPlayed s.played_pile) c
            (s.player_hands.set pid ((s.player_hands.getD pid []).erase c)) = []
         then 0 else 1) ∧
    (TheMind.skippedCards (TheMind.lastPlayed s.played_pile) c
        (s.player_hands.set pid ((s.player_hands.getD pid []).erase c)) = [] ↔
      ∀ j, j < s.player_hands.length →
        ∀ x ∈ s.player_hands.getD j [], ¬ (TheMind.lastPlayed s.played_pile < x ∧ x < c)) := by
  have hpc : TheMind.play_card s pid c =
      (let s1 : TheMind.MindState :=
        { s with
          player_hands := s.player_hands.set pid ((s.player_hands.getD pid []).erase c)
          played_pile := s.played_pile ++ [c] }
       let r := TheMind.handle_skipped_cards s1 (TheMind.lastPlayed s.played_pile) c
       if r.2.state = TheMind.GameState.GAME_LOST then (true, r.2)
       else if TheMind.is_level_complete r.2 then (true, TheMind.complete_level r.2)
       else (true, r.2)) := by
    simp only [TheMind.play_card, if_neg (not_not_intro hst), if_neg (not_not_intro hpid),
      if_neg (not_not_intro hcard), if_neg (by omega : ¬ c < TheMind.lastPlayed s.played_pile)]
  obtain ⟨hh, hd, hp, _, _, hl, _⟩ := handle_skipped_spec
    { s with
      player_hands := s.player_hands.set pid ((s.player_hands.getD pid []).erase c)
      played_pile := s.played_pile ++ [c] } (TheMind.lastPlayed s.played_pile) c
  rw [hpc]
  refine ⟨?_, ?_, ?_, ?_, ?_, skipped_empty_iff s.player_hands pid c _ hpid hcard⟩ <;>
    · simp only []
      split
      · simp_all
      · split
        · obtain ⟨ch, cd, cp, cl, _⟩ := complete_level_spec
            (TheMind.handle_skipped_cards
              { s with
                player_hands := s.player_hands.set pid ((s.player_hands.getD pid []).erase c)
                played_pile := s.played_pile ++ [c] }
              (TheMind.lastPlayed s.played_pile) c).2
          simp_all
        · simp_all

/-- Witness for claim C1 at the spec's concrete example. -/
theorem C1_in_order_play_witness :
    (TheMind.play_card skipExample 0 30).1 = true ∧
    (TheMind.play_card skipExample 0 30).2.played_pile = [30] ∧
    (TheMind.play_card skipExample 0 30).2.player_hands = [[], []] ∧
    (TheMind.play_card skipExample 0 30).2.discarded_cards = [20] ∧
    (TheMind.play_card skipExample 0 30).2.lives = 1 := by
  obtain ⟨h1, h2, h3, h4, h5, _⟩ :=
    C1_in_order_play skipExample 0 30 rfl (by decide) (by decide) (by decide)
  exact ⟨h1, by rw [h2]; rfl, by rw [h3]; decide, by rw [h4]; decide,
    by rw [h5]; decide⟩

/-! ## Claim C2: failed actions and state mutation -/

/-- Field-level description of `TheMind._handle_out_of_order`: one life is
lost, the cards strictly between the (unchanged) pile top and the failed
card are discarded from every hand, and the pile is not touched. -/
theorem out_of_order_spec (s : TheMind.MindState) (c : Nat) :
    (TheMind.handle_out_of_order s c).played_pile = s.played_pile ∧
    (TheMind.handle_out_of_order s c).lives = s.lives - 1 ∧
    (TheMind.handle_out_of_order s c).player_hands =
      TheMind.dropSkipped (TheMind.lastPlayed s.played_pile) c s.player_hands ∧
    (TheMind.handle_out_of_order s c).discarded_cards =
      s.discarded_cards ++
        TheMind.skippedCards (TheMind.lastPlayed s.played_pile) c s.player_hands := by
  simp only [TheMind.handle_out_of_order]
  split <;> exact ⟨rfl, rfl, rfl, rfl⟩

/-- Counterexample to claim C2 as stated: playing 5 on pile top 10 returns a
failure result, yet the state after the call is not the state before — a
life has been lost (2 becomes 1), exactly as the spec's own out-of-order
rule and the repository's tests demand. -/
theorem C2_failed_action_cex :
    (TheMind.play_card mindOO 0 5).1 = false ∧
    mindOO.lives = 2 ∧
    (TheMind.play_card mindOO 0 5).2.lives = 1 ∧
    (TheMind.play_card mindOO 0 5).2 ≠ mindOO := by
  refine ⟨by decide, by decide, by decide, by decide⟩

/-- Claim C2 (amended): every action call of every engine that returns a
failure result leaves the engine state unchanged, with one exception: an
out-of-order card play returns a failure *and* mutates — it loses exactly
one life and discards every card strictly between the unchanged pile top
and the failed card from every hand, leaving the pile itself unchanged. -/
theorem C2_failed_actions :
    (∀ (s : TheMind.MindState) (pid c : Nat), (TheMind.play_card s pid c).1 = false →
      ((TheMind.play_card s pid c).2 = s ∨
        (s.state = TheMind.GameState.IN_PROGRESS ∧
         c ∈ s.player_hands.getD pid [] ∧
         c < TheMind.lastPlayed s.played_pile ∧
         (TheMind.play_card s pid c).2.lives = s.lives - 1 ∧
         (TheMind.play_card s pid c).2.played_pile = s.played_pile ∧
         (TheMind.play_card s pid c).2.player_hands =
           TheMind.dropSkipped (TheMind.lastPlayed s.played_pile) c s.player_hands ∧
         (TheMind.play_card s pid c).2.discarded_cards =
           s.discarded_cards ++
             TheMind.skippedCards (TheMind.lastPlayed s.played_pile) c s.player_hands))) ∧
    (∀ s, (TheMind.use_throwing_star s).1.1 = false →
      (TheMind.use_throwing_star s).2 = s) ∧
    (∀ (s : Azrok.AzrokState) (d : Nat), (Azrok.start_round s d).1 = false →
      (Azrok.start_round s d).2 = s) ∧
    (∀ (s : Azrok.AzrokState) (p : Nat) (a : Int), (Azrok.invest_people s p a).1 = false →
      (Azrok.invest_people s p a).2 = s) ∧
    (∀ (s : Azrok.AzrokState) (p : Nat), (Azrok.invest_improvement s p).1 = false →
      (Azrok.invest_improvement s p).2 = s) ∧
    (∀ (s : Azrok.AzrokState) (p t : Nat), (Azrok.use_tax s p t).1 = false →
      (Azrok.use_tax s p t).2 = s) ∧
    (∀ (s : Azrok.AzrokState) (p : Nat), (Azrok.buy_powder_charge s p).1 = false →
      (Azrok.buy_powder_charge s p).2 = s) ∧
    (∀ (s : Azrok.AzrokState) (p : Nat), (Azrok.buy_azroks_dagger s p).1 = false →
      (Azrok.buy_azroks_dagger s p).2 = s) ∧
    (∀ (s : Azrok.AzrokState) (p : Nat), (Azrok.end_turn s p).1 = false →
      (Azrok.end_turn s p).2 = s) ∧
    (∀ (s : Azrok.AzrokState), (Azrok.resolve_round s).1 = false →
      (Azrok.resolve_round s).2 = s) ∧
    (∀ (s : Scrib.ScribState) (k : Nat), (Scrib.start_round s k).1.ok = false →
      (Scrib.start_round s k).2 = s) ∧
    (∀ (s : Scrib.ScribState) (p : Nat) (w : String), (Scrib.guess s p w).1.1 = false →
      (Scrib.guess s p w).2 = s) ∧
    (∀ (s : Scrib.ScribState), (Scrib.end_drawing s).1 = false →
      (Scrib.end_drawing s).2 = s) := by
  refine ⟨?_, ?_, ?_, ?_, ?_, ?_, ?_, ?_, ?_, ?_, ?_, ?_, ?_⟩
  · intro s pid c h
    by_cases h1 : s.state ≠ TheMind.GameState.IN_PROGRESS
    · left; simp only [TheMind.play_card, if_pos h1]
    · by_cases h2 : ¬ pid < s.player_hands.length
      · left; simp only [TheMind.play_card, if_neg h1, if_pos h2]
      · by_cases h3 : ¬ c ∈ s.player_hands.getD pid []
        · left; simp only [TheMind.play_card, if_neg h1, if_neg h2, if_pos h3]
        · by_cases h4 : c < TheMind.lastPlayed s.played_pile
          · right
            have hr : TheMind.play_card s pid c = (false, TheMind.handle_out_of_order s c) := by
              simp only [TheMind.play_card, if_neg h1, if_neg h2, if_neg h3, if_pos h4]
            obtain ⟨o1, o2, o3, o4⟩ := out_of_order_spec s c
            rw [hr]
            exact ⟨not_not.mp h1, not_not.mp h3, h4, o2, o1, o3, o4⟩
          · exfalso
            simp only [TheMind.play_card, if_neg h1, if_neg h2, if_neg h3, if_neg h4] at h
            split at h
            · simp at h
            · split at h <;> simp at h
  · intro s h
    simp only [TheMind.use_throwing_star] at h ⊢
    split_ifs at h ⊢ <;> simp_all
  · intro s d h
    simp only [Azrok.start_round] at h ⊢
    split_ifs at h ⊢ <;> simp_all
  · intro s p a h
    simp only [Azrok.invest_people] at h ⊢
    split_ifs at h ⊢ <;> simp_all
  · intro s p h
    simp only [Azrok.invest_improvement] at h ⊢
    split_ifs at h ⊢ <;> simp_all
  · intro s p t h
    simp only [Azrok.use_tax] at h ⊢
    split_ifs at h ⊢ <;> simp_all
  · intro s p h
    simp only [Azrok.buy_powder_charge] at h ⊢
    split_ifs at h ⊢ <;> simp_all
  · intro s p h
    simp only [Azrok.buy_azroks_dagger] at h ⊢
    split_ifs at h ⊢ <;> simp_all
  · intro s p h
    simp only [Azrok.end_turn] at h ⊢
    split_ifs at h ⊢ <;> simp_all
  · intro s h
    by_cases hp : s.state ≠ Azrok.AzrokGameState.RESOLUTION_PHASE
    · simp only [Azrok.resolve_round, if_pos hp]
    · exfalso
      simp only [Azrok.resolve_round, if_neg hp] at h
      split at h
      · rw [(resolve_distribute_spec _).1] at h
        simp at h
      · split at h
        · simp at h
        · rw [(resolve_distribute_spec _).1] at h
          simp at h
  · intro s k h
    simp only [Scrib.start_round] at h ⊢
    split_ifs at h ⊢ <;> simp_all
  · intro s p w h
    simp only [Scrib.guess] at h ⊢
    split_ifs at h ⊢ <;> try rfl
    all_goals
      · split at h <;> try rfl
        split at h <;> simp_all
  · intro s h
    simp only [Scrib.end_drawing] at h ⊢
    split_ifs at h ⊢ <;> simp_all

/-- Witness for claim C2 (amended) at a concrete input: calling the economy
engine's `start_round` during the resolution phase fails and changes
nothing. -/
theorem C2_failed_actions_witness :
    (Azrok.start_round potExample 1).1 = false ∧
    (Azrok.start_round potExample 1).2 = potExample := by
  exact ⟨by decide, C2_failed_actions.2.2.1 potExample 1 (by decide)⟩

/-! ## Claim C7: terminal states block mutation but not views -/

/-- Counterexample to claim C7 as stated: the card engine's `setup_level`
(its round-start operation, reachable through the `next_level` protocol
action) has no terminal-state guard — applied to a lost game it re-deals
and flips the state back to `IN_PROGRESS` instead of returning a failure
and changing nothing. -/
theorem C7_terminal_cex :
    mindLost.state = TheMind.GameState.GAME_LOST ∧
    (TheMind.setup_level mindLost (List.range' 1 100)).state =
      TheMind.GameState.IN_PROGRESS ∧
    TheMind.setup_level mindLost (List.range' 1 100) ≠ mindLost := by
  refine ⟨rfl, rfl, by decide⟩

/-- Claim C7 (amended): in a terminal state, every failable action of every
engine — `play_card` and `use_throwing_star` for the card game;
`start_round`, the five investment-phase actions and `resolve_round` for the
economy game; `start_round`, `guess` and `end_drawing` for the drawing game
— returns a failure and changes nothing, and the view queries remain
callable and succeed; however the card engine's `setup_level` itself is not
terminal-guarded (it re-deals from any state, see the counterexample), and
the server's `next_level` handler compensates by invoking it only in the
`LEVEL_COMPLETE` state, so that through the server a terminal `next_level`
changes nothing (while reporting no failure either). -/
theorem C7_terminal_rejections :
    (∀ (s : TheMind.MindState) (pid c : Nat) (deck : List Nat),
      (s.state = TheMind.GameState.GAME_WON ∨ s.state = TheMind.GameState.GAME_LOST) →
      TheMind.play_card s pid c = (false, s) ∧
      TheMind.use_throwing_star s = ((false, []), s) ∧
      Server.handle_next_level s deck = s ∧
      (TheMind.setup_level s deck).state = TheMind.GameState.IN_PROGRESS ∧
      (TheMind.get_game_info s).state = s.state ∧
      (TheMind.get_game_info s).lives = s.lives ∧
      (pid < s.player_hands.length →
        TheMind.get_player_hand s pid =
          (s.player_hands.getD pid []).insertionSort (· ≤ ·))) ∧
    (∀ (s : Azrok.AzrokState) (d p t : Nat) (a : Int),
      (s.state = Azrok.AzrokGameState.GAME_WON_REPUBLIC ∨
       s.state = Azrok.AzrokGameState.GAME_WON_DROW) →
      Azrok.start_round s d = (false, s) ∧
      Azrok.invest_people s p a = (false, s) ∧
      Azrok.invest_improvement s p = (false, s) ∧
      Azrok.use_tax s p t = (false, s) ∧
      Azrok.buy_powder_charge s p = (false, s) ∧
      Azrok.buy_azroks_dagger s p = (false, s) ∧
      Azrok.end_turn s p = (false, s) ∧
      Azrok.resolve_round s = (false, s) ∧
      (p < s.roles.length → (Azrok.get_player_info s p).isSome = true)) ∧
    (∀ (s : Scrib.ScribState) (k p : Nat) (w : String),
      s.state = Scrib.ScribblesGameState.GAME_OVER →
      (Scrib.start_round s k).1.ok = false ∧
      (Scrib.start_round s k).2 = s ∧
      (Scrib.guess s p w).1.1 = false ∧
      (Scrib.guess s p w).2 = s ∧
      Scrib.end_drawing s = (false, s) ∧
      Scrib.get_drawer_info s = (s.current_drawer, s.current_word) ∧
      (Scrib.get_game_info s).scores = s.scores) := by
  refine ⟨?_, ?_, ?_⟩
  · intro s pid c deck hterm
    have hni : s.state ≠ TheMind.GameState.IN_PROGRESS := by
      rcases hterm with h | h <;> rw [h] <;> decide
    have hnl : s.state ≠ TheMind.GameState.LEVEL_COMPLETE := by
      rcases hterm with h | h <;> rw [h] <;> decide
    refine ⟨?_, ?_, ?_, rfl, rfl, rfl, ?_⟩
    · simp only [TheMind.play_card, if_pos hni]
    · simp only [TheMind.use_throwing_star, if_pos hni]
    · simp only [Server.handle_next_level, if_neg hnl]
    · intro hp
      simp only [TheMind.get_player_hand, if_pos hp]
  · intro s d p t a hterm
    have h1 : ¬ (s.state = Azrok.AzrokGameState.SETUP ∨
        s.state = Azrok.AzrokGameState.ROUND_END) := by
      rcases hterm with h | h <;> rw [h] <;> decide
    have h2 : s.state ≠ Azrok.AzrokGameState.INVESTMENT_PHASE := by
      rcases hterm with h | h <;> rw [h] <;> decide
    have h3 : s.state ≠ Azrok.AzrokGameState.RESOLUTION_PHASE := by
      rcases hterm with h | h <;> rw [h] <;> decide
    refine ⟨?_, ?_, ?_, ?_, ?_, ?_, ?_, ?_, ?_⟩
    · simp only [Azrok.start_round, if_pos h1]
    · simp only [Azrok.invest_people, if_pos h2]
    · simp only [Azrok.invest_improvement, if_pos h2]
    · simp only [Azrok.use_tax, if_pos h2]
    · simp only [Azrok.buy_powder_charge, if_pos h2]
    · simp only [Azrok.buy_azroks_dagger, if_pos h2]
    · simp only [Azrok.end_turn, if_pos h2]
    · simp only [Azrok.resolve_round, if_pos h3]
    · intro hp
      simp only [Azrok.get_player_info, if_neg (not_not_intro hp), Option.isSome_some]
  · intro s k p w hterm
    have h1 : s.state ≠ Scrib.ScribblesGameState.DRAWING := by rw [hterm]; decide
    refine ⟨?_, ?_, ?_, ?_, ?_, rfl, rfl⟩
    · simp only [Scrib.start_round, if_pos hterm]
    · simp only [Scrib.start_round, if_pos hterm]
    · simp only [Scrib.guess, if_pos h1]
    · simp only [Scrib.guess, if_pos h1]
    · simp only [Scrib.end_drawing, if_pos h1]

/-- Witness for claim C7 (amended) at concrete terminal states of all three
engines. -/
theorem C7_terminal_rejections_witness :
    (TheMind.play_card mindLost 0 5 = (false, mindLost) ∧
     Server.handle_next_level mindLost (List.range' 1 100) = mindLost) ∧
    (Azrok.start_round { potExample with
        state := Azrok.AzrokGameState.GAME_WON_DROW } 1 =
      (false, { potExample with state := Azrok.AzrokGameState.GAME_WON_DROW })) ∧
    ((Scrib.start_round { scrib11 with
        state := Scrib.ScribblesGameState.GAME_OVER } 0).1.ok = false) := by
  obtain ⟨m1, _, m3, _⟩ :=
    C7_terminal_rejections.1 mindLost 0 5 (List.range' 1 100) (Or.inr rfl)
  obtain ⟨a1, _⟩ :=
    C7_terminal_rejections.2.1
      { potExample with state := Azrok.AzrokGameState.GAME_WON_DROW }
      1 0 0 0 (Or.inr rfl)
  obtain ⟨s1, _⟩ :=
    C7_terminal_rejections.2.2
      { scrib11 with state := Scrib.ScribblesGameState.GAME_OVER } 0 0 "x" rfl
  exact ⟨⟨m1, m3⟩, a1, s1⟩

/-! ## Claim C8: drawer rotation in the drawing-and-guessing engine -/

/-- Claim C8: successive successful `start_round` calls (each after the
previous round ends) rotate the drawer by incrementing an index modulo the
player count; the round counter increments exactly when the drawer index
wraps to 0 (the very first call sets drawer 0 and round 1); and the
`start_round` call after the configured number of rounds has completed sets
the state to game over and reports the final scores.  For 3 players and 2
rounds the drawer sequence over six calls is 0,1,2,0,1,2, the round counter
is 1,1,1,2,2,2, and the seventh call ends the game. -/
theorem C8_drawer_rotation :
    Scrib.init 3 2 = some Scrib.scrib32 ∧
    (∀ (s : Scrib.ScribState) (k : Nat),
      s.state = Scrib.ScribblesGameState.ROUND_END →
      (Scrib.start_round s k).2.current_drawer =
        (s.current_drawer + 1) % s.num_players ∧
      (Scrib.start_round s k).2.current_round =
        (if (s.current_drawer + 1) % s.num_players = 0 then
          s.current_round + 1 else s.current_round) ∧
      ((if (s.current_drawer + 1) % s.num_players = 0 then
          s.current_round + 1 else s.current_round) > s.num_rounds →
        (Scrib.start_round s k).1.ok = true ∧
        (Scrib.start_round s k).1.game_over = true ∧
        (Scrib.start_round s k).1.final_scores = s.scores ∧
        (Scrib.start_round s k).2.state = Scrib.ScribblesGameState.GAME_OVER) ∧
      ((if (s.current_drawer + 1) % s.num_players = 0 then
          s.current_round + 1 else s.current_round) ≤ s.num_rounds →
        (Scrib.start_round s k).1.ok = true ∧
        (Scrib.start_round s k).1.game_over = false ∧
        (Scrib.start_round s k).2.state = Scrib.ScribblesGameState.DRAWING)) ∧
    (∀ (s : Scrib.ScribState) (k : Nat),
      s.state = Scrib.ScribblesGameState.WAITING →
      (Scrib.start_round s k).2.current_drawer = 0 ∧
      (Scrib.start_round s k).2.current_round = 1) ∧
    ((Scrib.start_round Scrib.scrib32 0).2.current_drawer = 0 ∧
     (Scrib.start_round Scrib.scrib32 0).2.current_round = 1 ∧
     (Scrib.start_round (Scrib.cycle Scrib.scrib32) 0).2.current_drawer = 1 ∧
     (Scrib.start_round (Scrib.cycle Scrib.scrib32) 0).2.current_round = 1 ∧
     (Scrib.start_round (Scrib.cycle (Scrib.cycle Scrib.scrib32)) 0).2.current_drawer = 2 ∧
     (Scrib.start_round (Scrib.cycle (Scrib.cycle Scrib.scrib32)) 0).2.current_round = 1 ∧
     (Scrib.start_round (Scrib.cycle (Scrib.cycle (Scrib.cycle Scrib.scrib32))) 0).2.current_drawer = 0 ∧
     (Scrib.start_round (Scrib.cycle (Scrib.cycle (Scrib.cycle Scrib.scrib32))) 0).2.current_round = 2 ∧
     (Scrib.start_round (Scrib.cycle (Scrib.cycle (Scrib.cycle (Scrib.cycle Scrib.scrib32)))) 0).2.current_drawer = 1 ∧
     (Scrib.start_round (Scrib.cycle (Scrib.cycle (Scrib.cycle (Scrib.cycle Scrib.scrib32)))) 0).2.current_round = 2 ∧
     (Scrib.start_round (Scrib.cycle (Scrib.cycle (Scrib.cycle (Scrib.cycle (Scrib.cycle Scrib.scrib32))))) 0).2.current_drawer = 2 ∧
     (Scrib.start_round (Scrib.cycle (Scrib.cycle (Scrib.cycle (Scrib.cycle (Scrib.cycle Scrib.scrib32))))) 0).2.current_round = 2 ∧
     (Scrib.start_round (Scrib.cycle (Scrib.cycle (Scrib.cycle (Scrib.cycle (Scrib.cycle (Scrib.cycle Scrib.scrib32)))))) 0).1.ok = true ∧
     (Scrib.start_round (Scrib.cycle (Scrib.cycle (Scrib.cycle (Scrib.cycle (Scrib.cycle (Scrib.cycle Scrib.scrib32)))))) 0).1.game_over = true ∧
     (Scrib.start_round (Scrib.cycle (Scrib.cycle (Scrib.cycle (Scrib.cycle (Scrib.cycle (Scrib.cycle Scrib.scrib32)))))) 0).1.final_scores = [0, 0, 0] ∧
     (Scrib.start_round (Scrib.cycle (Scrib.cycle (Scrib.cycle (Scrib.cycle (Scrib.cycle (Scrib.cycle Scrib.scrib32)))))) 0).2.state = Scrib.ScribblesGameState.GAME_OVER) := by
  refine ⟨rfl, ?_, ?_, by decide⟩
  · intro s k hst
    have h1 : ¬ s.state = Scrib.ScribblesGameState.GAME_OVER := by rw [hst]; decide
    have h2 : ¬ s.state = Scrib.ScribblesGameState.DRAWING := by rw [hst]; decide
    have h3 : ¬ s.state = Scrib.ScribblesGameState.WAITING := by rw [hst]; decide
    simp only [Scrib.start_round, if_neg h1, if_neg h2, if_neg h3]
    by_cases hgt :
        (if (s.current_drawer + 1) % s.num_players = 0 then
          s.current_round + 1 else s.current_round) > s.num_rounds
    · rw [if_pos (by simpa using hgt)]
      refine ⟨rfl, rfl, fun _ => ⟨rfl, rfl, rfl, rfl⟩, fun hle => absurd hgt (by omega)⟩
    · rw [if_neg (by simpa using hgt)]
      exact ⟨by simp [Scrib.pick_word], by simp [Scrib.pick_word],
        fun h => absurd h hgt, fun _ => ⟨rfl, rfl, rfl⟩⟩
  · intro s k hst
    by_cases h1 : s.state = Scrib.ScribblesGameState.GAME_OVER
    · rw [hst] at h1; exact absurd h1 (by decide)
    · have h2 : ¬ s.state = Scrib.ScribblesGameState.DRAWING := by rw [hst]; decide
      simp only [Scrib.start_round, if_neg h1, if_neg h2, if_pos hst]
      by_cases hgt : 1 > s.num_rounds
      · rw [if_pos (by simpa using hgt)]
        exact ⟨rfl, rfl⟩
      · rw [if_neg (by simpa using hgt)]
        exact ⟨by simp [Scrib.pick_word], by simp [Scrib.pick_word]⟩

/-- Witness for claim C8 at a concrete round-end state: from drawer 2 of 3
players in round 1, the next `start_round` wraps the drawer to 0 and
increments the round counter. -/
theorem C8_drawer_rotation_witness :
    (Scrib.start_round
      { Scrib.scrib32 with
          state := Scrib.ScribblesGameState.ROUND_END
          current_round := 1
          current_drawer := 2 } 0).2.current_drawer = 0 ∧
    (Scrib.start_round
      { Scrib.scrib32 with
          state := Scrib.ScribblesGameState.ROUND_END
          current_round := 1
          current_drawer := 2 } 0).2.current_round = 2 := by
  obtain ⟨hd, hr, _, _⟩ := C8_drawer_rotation.2.1
    { Scrib.scrib32 with
        state := Scrib.ScribblesGameState.ROUND_END
        current_round := 1
        current_drawer := 2 } 0 rfl
  exact ⟨by rw [hd]; decide, by rw [hr]; decide⟩

/-! ## Claim C10: the single-player drawing game -/

/-- Invariant of every reachable state of a one-player drawing game: there
is one player, the drawer slot is 0, and the score table has one entry. -/
theorem scrib_one_player_inv (r : Nat) (s : Scrib.ScribState)
    (h : Scrib.Reachable 1 r s) :
    s.num_players = 1 ∧ s.current_drawer = 0 ∧ s.scores.length = 1 := by
  induction h with
  | init s hs =>
      simp only [Scrib.init, Scrib.MIN_PLAYERS] at hs
      rw [if_neg (by omega)] at hs
      cases hs
      exact ⟨rfl, rfl, rfl⟩
  | start s k hr ih =>
      obtain ⟨h1, h2, h3⟩ := ih
      simp only [Scrib.start_round]
      split
      · exact ⟨h1, h2, h3⟩
      · split
        · exact ⟨h1, h2, h3⟩
        · repeat' split
          all_goals simp_all [Scrib.pick_word]
  | guessStep s pid w hr ih =>
      obtain ⟨h1, h2, h3⟩ := ih
      simp only [Scrib.guess]
      split
      · exact ⟨h1, h2, h3⟩
      · split
        · exact ⟨h1, h2, h3⟩
        · split
          · exact ⟨h1, h2, h3⟩
          · split
            · exact ⟨h1, h2, h3⟩
            · split
              · simp_all [List.length_set]
              · exact ⟨h1, h2, h3⟩
  | endD s hr ih =>
      obtain ⟨h1, h2, h3⟩ := ih
      simp only [Scrib.end_drawing]
      split
      · exact ⟨h1, h2, h3⟩
      · exact ⟨h1, h2, h3⟩

/-- Claim C10: in a drawing game created with exactly one player, the
current drawer is slot 0 in every reachable state, every guess (in
particular every guess by the sole player, which is rejected with
"The drawer cannot guess") fails and changes nothing, so no score ever
changes through guessing and the game state (hence the round) can only
change via an action other than `guess`. -/
theorem C10_single_player (r : Nat) (s : Scrib.ScribState)
    (h : Scrib.Reachable 1 r s) :
    s.current_drawer = 0 ∧
    (∀ pid w, (Scrib.guess s pid w).1.1 = false ∧ (Scrib.guess s pid w).2 = s) ∧
    (∀ w, s.state = Scrib.ScribblesGameState.DRAWING →
      (Scrib.guess s 0 w).1.2 = "The drawer cannot guess") ∧
    (∀ pid w, (Scrib.guess s pid w).2.scores = s.scores ∧
      (Scrib.guess s pid w).2.state = s.state) := by
  obtain ⟨h1, h2, h3⟩ := scrib_one_player_inv r s h
  have hguess : ∀ pid w,
      Scrib.guess s pid w =
        ((false,
          if s.state ≠ Scrib.ScribblesGameState.DRAWING then "No round in progress"
          else if pid = 0 then "The drawer cannot guess"
          else "Invalid player ID"), s) := by
    intro pid w
    by_cases hst : s.state ≠ Scrib.ScribblesGameState.DRAWING
    · simp only [Scrib.guess, if_pos hst]
    · by_cases hp : pid = s.current_drawer
      · have hp0 : pid = 0 := by rw [hp, h2]
        simp only [Scrib.guess, if_neg hst, if_pos hp, if_pos hp0]
      · have hp0 : ¬ pid = 0 := by rw [← h2]; exact hp
        have hnp : ¬ pid < s.scores.length := by rw [h3]; omega
        simp only [Scrib.guess, if_neg hst, if_neg hp, if_pos hnp, if_neg hp0]
  refine ⟨h2, fun pid w => ⟨by rw [hguess pid w], by rw [hguess pid w]⟩,
    fun w hdr => ?_, fun pid w => ⟨by rw [hguess pid w], by rw [hguess pid w]⟩⟩
  rw [hguess 0 w]
  simp [hdr]

/-- Witness for claim C10 at a concrete reachable mid-round state of a
one-player game. -/
theorem C10_single_player_witness :
    (Scrib.start_round scrib11 0).2.current_drawer = 0 ∧
    (Scrib.guess (Scrib.start_round scrib11 0).2 0 "lightsaber").1.1 = false ∧
    (Scrib.guess (Scrib.start_round scrib11 0).2 0 "lightsaber").2 =
      (Scrib.start_round scrib11 0).2 := by
  have hreach : Scrib.Reachable 1 3 (Scrib.start_round scrib11 0).2 :=
    Scrib.Reachable.start scrib11 0 (Scrib.Reachable.init scrib11 (by decide))
  obtain ⟨hd, hg, _, _⟩ := C10_single_player 3 _ hreach
  exact ⟨hd, (hg 0 "lightsaber").1, (hg 0 "lightsaber").2⟩

/-- Witness for claim C6 (amended): round 10 in the resolution phase with a
funded pot resolves to the Republic victory state. -/
theorem C6_final_round_witness :
    (Azrok.resolve_round { potExample with current_round := 10 }).1 = true ∧
    (Azrok.resolve_round { potExample with current_round := 10 }).2.state =
      Azrok.AzrokGameState.GAME_WON_REPUBLIC := by
  exact C6_final_round { potExample with current_round := 10 } rfl rfl (by decide)

/-! ## Claim C3: card accounting in the ascending-card engine -/

/-- Discarding the skipped cards moves cards from hands to the discard pile:
lengths are conserved. -/
theorem sum_dropSkipped (t c : Nat) (L : List (List Nat)) :
    ((TheMind.dropSkipped t c L).map (fun h => h.length)).sum +
      (TheMind.skippedCards t c L).length =
    (L.map (fun h => h.length)).sum := by
  induction L with
  | nil => rfl
  | cons h tl ih =>
      simp only [TheMind.dropSkipped, TheMind.skippedCards, List.map_cons,
        List.flatten_cons, List.length_append, List.sum_cons] at *
      have hsplit : h.length =
          (h.filter (fun x => decide (t < x ∧ x < c))).length +
            (h.filter (fun x => !(decide (t < x ∧ x < c)))).length :=
        List.length_eq_length_filter_add _
      omega

/-- Replacing the hand at a valid slot changes the total hand size by the
difference of the two hands. -/
theorem sum_set_hand (L : List (List Nat)) (v : List Nat) :
    ∀ i, i < L.length →
      ((L.set i v).map (fun h => h.length)).sum + (L.getD i []).length =
        (L.map (fun h => h.length)).sum + v.length := by
  induction L with
  | nil => intro i hi; simp at hi
  | cons h tl ih =>
      intro i hi
      cases i with
      | zero => simp [List.getD_cons_zero]; omega
      | succ j =>
          simp only [List.set_cons_succ, List.map_cons, List.sum_cons,
            List.getD_cons_succ]
          have := ih j (by simpa using hi)
          omega

/-- The throwing star's per-hand removal of the lowest card conserves
lengths against the list of dropped cards. -/
theorem sum_star_erase (L : List (List Nat)) :
    ((L.map (fun h => match h.min? with
        | none => h
        | some m => h.erase m)).map (fun h => h.length)).sum +
      (L.filterMap (fun h => h.min?)).length =
    (L.map (fun h => h.length)).sum := by
  induction L with
  | nil => rfl
  | cons h tl ih =>
      cases hm : h.min? with
      | none =>
          simp only [List.map_cons, List.filterMap_cons, hm, List.sum_cons]
          omega
      | some m =>
          have hmem : m ∈ h := List.min?_mem min_choice hm
          have hlen := List.length_erase_add_one hmem
          simp only [List.map_cons, List.filterMap_cons, hm, List.sum_cons,
            List.length_cons]
          omega

/-- The dropped-card list built from the enumerated hands projects to the
per-hand minima. -/
theorem map_snd_enumFrom_min (L : List (List Nat)) :
    ∀ i, (((L.enumFrom i).filterMap
        (fun p => (p.2.min?).map (fun m => (p.1, m)))).map (fun p => p.2)) =
      L.filterMap (fun h => h.min?) := by
  induction L with
  | nil => intro i; rfl
  | cons h tl ih =>
      intro i
      simp only [List.enumFrom_cons, List.filterMap_cons]
      cases hm : h.min? <;> simp [hm, ih]

/-- `dealHands` deals one hand per player. -/
theorem dealHands_length (n : Nat) : ∀ (lvl : Nat) (ds : List Nat),
    (TheMind.dealHands n lvl ds).length = n := by
  induction n with
  | zero => intro lvl ds; rfl
  | succ k ih =>
      intro lvl ds
      simp only [TheMind.dealHands, List.length_cons, ih]

/-- `dealHands` deals `lvl` cards to each of the `n` players when the deck
is large enough. -/
theorem dealHands_sum (n : Nat) : ∀ (lvl : Nat) (ds : List Nat), n * lvl ≤ ds.length →
    ((TheMind.dealHands n lvl ds).map (fun h => h.length)).sum = n * lvl := by
  induction n with
  | zero => intro lvl ds _; simp [TheMind.dealHands]
  | succ k ih =>
      intro lvl ds hle
      have h1 : lvl ≤ ds.length := by
        have : (k + 1) * lvl = k * lvl + lvl := by ring
        omega
      have h2 : k * lvl ≤ (ds.drop lvl).length := by
        rw [List.length_drop]
        have : (k + 1) * lvl = k * lvl + lvl := by ring
        omega
      simp only [TheMind.dealHands, List.map_cons, List.sum_cons]
      rw [List.length_insertionSort, List.length_take_of_le h1, ih lvl _ h2]
      ring

/-- `setup_level` establishes the invariant from any state satisfying the
bound components, for any full-deck permutation. -/
theorem setup_preserves_inv (s : TheMind.MindState) (deck : List Nat)
    (hinv : MindInv s) (hperm : deck.Perm (List.range' 1 100)) :
    MindInv (TheMind.setup_level s deck) := by
  obtain ⟨hlen, hnp, hl1, hl2, _⟩ := hinv
  have hdl : deck.length = 100 := by
    rw [hperm.length_eq, List.length_range']
  have hbound : s.num_players * s.current_level ≤ deck.reverse.length := by
    rw [List.length_reverse, hdl]
    calc s.num_players * s.current_level ≤ 4 * 12 :=
          Nat.mul_le_mul hnp hl2
      _ ≤ 100 := by omega
  refine ⟨?_, hnp, hl1, hl2, ?_⟩
  · simp only [TheMind.setup_level, dealHands_length]
  · intro _
    simp only [TheMind.setup_level, List.length_nil]
    rw [dealHands_sum _ _ _ hbound]
    ring

/-- Building the invariant from field equations against a base state whose
bounds are known. -/
theorem mindInv_of_fields (s u : TheMind.MindState)
    (hlen : s.player_hands.length = s.num_players) (hnp : s.num_players ≤ 4)
    (hl1 : 1 ≤ s.current_level) (hl2 : s.current_level ≤ 12)
    (hul : u.player_hands.length = s.player_hands.length)
    (hulev : u.current_level = s.current_level)
    (hunp : u.num_players = s.num_players)
    (hueq : u.played_pile.length + u.discarded_cards.length +
      (u.player_hands.map (fun h => h.length)).sum =
      s.current_level * s.num_players) :
    MindInv u := by
  refine ⟨by rw [hul, hlen, hunp], by rw [hunp]; exact hnp,
    by rw [hulev]; exact hl1, by rw [hulev]; exact hl2, fun _ => ?_⟩
  rw [hulev, hunp]
  exact hueq

/-- `_complete_level` preserves the invariant: in the won branch the
accounting equation survives unchanged, and in the level-advance branch the
state tag `LEVEL_COMPLETE` makes the equation vacuous while the level stays
within bounds. -/
theorem complete_level_inv (u : TheMind.MindState)
    (hlen : u.player_hands.length = u.num_players) (hnp : u.num_players ≤ 4)
    (hl1 : 1 ≤ u.current_level) (hl2 : u.current_level ≤ 12)
    (heq : u.played_pile.length + u.discarded_cards.length +
      (u.player_hands.map (fun h => h.length)).sum =
      u.current_level * u.num_players) :
    MindInv (TheMind.complete_level u) := by
  simp only [TheMind.complete_level]
  split
  · exact ⟨hlen, hnp, hl1, hl2, fun _ => heq⟩
  · refine ⟨hlen, hnp, ?_, ?_, ?_⟩
    · show 1 ≤ u.current_level + 1
      omega
    · show u.current_level + 1 ≤ 12
      have hmax : ¬ u.current_level ≥ TheMind.MAX_LEVELS := by assumption
      simp only [TheMind.MAX_LEVELS] at hmax
      omega
    · intro hc
      rcases hc with hc | hc | hc
      · exact absurd (show TheMind.GameState.LEVEL_COMPLETE =
          TheMind.GameState.IN_PROGRESS from hc) (by decide)
      · exact absurd (show TheMind.GameState.LEVEL_COMPLETE =
          TheMind.GameState.GAME_WON from hc) (by decide)
      · exact absurd (show TheMind.GameState.LEVEL_COMPLETE =
          TheMind.GameState.GAME_LOST from hc) (by decide)

/-- `play_card` preserves the invariant. -/
theorem play_preserves_inv (s : TheMind.MindState) (pid c : Nat)
    (hinv : MindInv s) : MindInv (TheMind.play_card s pid c).2 := by
  obtain ⟨hlen, hnp, hl1, hl2, heq⟩ := hinv
  by_cases h1 : s.state ≠ TheMind.GameState.IN_PROGRESS
  · simp only [TheMind.play_card, if_pos h1]
    exact ⟨hlen, hnp, hl1, hl2, heq⟩
  by_cases h2 : ¬ pid < s.player_hands.length
  · simp only [TheMind.play_card, if_neg h1, if_pos h2]
    exact ⟨hlen, hnp, hl1, hl2, heq⟩
  by_cases h3 : ¬ c ∈ s.player_hands.getD pid []
  · simp only [TheMind.play_card, if_neg h1, if_neg h2, if_pos h3]
    exact ⟨hlen, hnp, hl1, hl2, heq⟩
  have hst : s.state = TheMind.GameState.IN_PROGRESS := not_not.mp h1
  have hpid : pid < s.player_hands.length := not_not.mp h2
  have hcard : c ∈ s.player_hands.getD pid [] := not_not.mp h3
  have htot : s.played_pile.length + s.discarded_cards.length +
      (s.player_hands.map (fun h => h.length)).sum =
      s.current_level * s.num_players := heq (Or.inl hst)
  by_cases h4 : c < TheMind.lastPlayed s.played_pile
  · simp only [TheMind.play_card, if_neg h1, if_neg h2, if_neg h3, if_pos h4]
    obtain ⟨o1, _, o3, o4⟩ := out_of_order_spec s c
    have hlev : (TheMind.handle_out_of_order s c).current_level = s.current_level ∧
        (TheMind.handle_out_of_order s c).num_players = s.num_players := by
      simp only [TheMind.handle_out_of_order]
      split <;> exact ⟨rfl, rfl⟩
    have hsum := sum_dropSkipped (TheMind.lastPlayed s.played_pile) c s.player_hands
    refine mindInv_of_fields s _ hlen hnp hl1 hl2 ?_ hlev.1 hlev.2 ?_
    · rw [o3, TheMind.dropSkipped, List.length_map]
    · rw [o1, o3, o4, List.length_append]
      omega
  · have hpc : TheMind.play_card s pid c =
        (let s1 : TheMind.MindState :=
          { s with
            player_hands := s.player_hands.set pid ((s.player_hands.getD pid []).erase c)
            played_pile := s.played_pile ++ [c] }
         let r := TheMind.handle_skipped_cards s1 (TheMind.lastPlayed s.played_pile) c
         if r.2.state = TheMind.GameState.GAME_LOST then (true, r.2)
         else if TheMind.is_level_complete r.2 then (true, TheMind.complete_level r.2)
         else (true, r.2)) := by
      simp only [TheMind.play_card, if_neg h1, if_neg h2, if_neg h3, if_neg h4]
    rw [hpc]
    obtain ⟨k1, k2, k3, k4, k5, _, _⟩ := handle_skipped_spec
      { s with
        player_hands := s.player_hands.set pid ((s.player_hands.getD pid []).erase c)
        played_pile := s.played_pile ++ [c] } (TheMind.lastPlayed s.played_pile) c
    have hers := List.length_erase_add_one hcard
    have hsets := sum_set_hand s.player_hands ((s.player_hands.getD pid []).erase c) pid hpid
    have hsum := sum_dropSkipped (TheMind.lastPlayed s.played_pile) c
      (s.player_hands.set pid ((s.player_hands.getD pid []).erase c))
    have hrlen : (TheMind.handle_skipped_cards
        { s with
          player_hands := s.player_hands.set pid ((s.player_hands.getD pid []).erase c)
          played_pile := s.played_pile ++ [c] }
        (TheMind.lastPlayed s.played_pile) c).2.player_hands.length =
        s.player_hands.length := by
      rw [k1, TheMind.dropSkipped, List.length_map, List.length_set]
    have hreq : (TheMind.handle_skipped_cards
        { s with
          player_hands := s.player_hands.set pid ((s.player_hands.getD pid []).erase c)
          played_pile := s.played_pile ++ [c] }
        (TheMind.lastPlayed s.played_pile) c).2.played_pile.length +
        (TheMind.handle_skipped_cards
        { s with
          player_hands := s.player_hands.set pid ((s.player_hands.getD pid []).erase c)
          played_pile := s.played_pile ++ [c] }
        (TheMind.lastPlayed s.played_pile) c).2.discarded_cards.length +
        ((TheMind.handle_skipped_cards
        { s with
          player_hands := s.player_hands.set pid ((s.player_hands.getD pid []).erase c)
          played_pile := s.played_pile ++ [c] }
        (TheMind.lastPlayed s.played_pile) c).2.player_hands.map
          (fun h => h.length)).sum =
        s.current_level * s.num_players := by
      rw [k1, k2, k3]
      simp only [List.length_append, List.length_cons, List.length_nil]
      omega
    have hr2inv : MindInv (TheMind.handle_skipped_cards
        { s with
          player_hands := s.player_hands.set pid ((s.player_hands.getD pid []).erase c)
          played_pile := s.played_pile ++ [c] }
        (TheMind.lastPlayed s.played_pile) c).2 :=
      mindInv_of_fields s _ hlen hnp hl1 hl2 hrlen (by rw [k4]) (by rw [k5]) hreq
    simp only []
    split
    · exact hr2inv
    · split
      · obtain ⟨j1, j2, j3, j4, _⟩ := hr2inv
        exact complete_level_inv _ j1 j2 j3 j4 (by rw [k4, k5]; exact hreq)
      · exact hr2inv


/-- `use_throwing_star` preserves the invariant. -/
theorem star_preserves_inv (s : TheMind.MindState) (hinv : MindInv s) :
    MindInv (TheMind.use_throwing_star s).2 := by
  obtain ⟨hlen, hnp, hl1, hl2, heq⟩ := hinv
  by_cases h1 : s.state ≠ TheMind.GameState.IN_PROGRESS
  · simp only [TheMind.use_throwing_star, if_pos h1]
    exact ⟨hlen, hnp, hl1, hl2, heq⟩
  · by_cases h2 : s.throwing_stars = 0
    · simp only [TheMind.use_throwing_star, if_neg h1, if_pos h2]
      exact ⟨hlen, hnp, hl1, hl2, heq⟩
    · have hst : s.state = TheMind.GameState.IN_PROGRESS := not_not.mp h1
      simp only [TheMind.use_throwing_star, if_neg h1, if_neg h2]
      refine ⟨by simpa using hlen, hnp, hl1, hl2, ?_⟩
      intro _
      simp only [List.length_append, List.enum]
      rw [map_snd_enumFrom_min s.player_hands 0]
      have hsum := sum_star_erase s.player_hands
      have htot := heq (Or.inl hst)
      simp only [List.map_map] at hsum ⊢
      omega

/-- Every reachable state of the card engine satisfies the invariant. -/
theorem mind_reachable_inv (s : TheMind.MindState)
    (h : TheMind.Reachable s) : MindInv s := by
  induction h with
  | init n s hs =>
      simp only [TheMind.init, TheMind.PLAYER_CONFIG] at hs
      split_ifs at hs <;>
        · cases hs
          subst_vars
          refine ⟨by decide, by decide, by decide, by decide, fun hc => ?_⟩
          rcases hc with hc | hc | hc <;> exact absurd hc (by decide)
  | setup s deck hr hperm ih => exact setup_preserves_inv s deck ih hperm
  | play s pid c hr ih => exact play_preserves_inv s pid c ih
  | star s hr ih => exact star_preserves_inv s ih

/-- Counterexample to claim C3 as stated: `mindLC` is reachable (constructor,
`setup_level`, one `play_card`), its state tag is `LEVEL_COMPLETE`, and the
card-accounting equation fails there, because `_complete_level` advances the
level counter before the next deal. -/
theorem C3_card_accounting_cex :
    TheMind.Reachable mindLC ∧
    mindLC.state = TheMind.GameState.LEVEL_COMPLETE ∧
    ¬ (mindLC.played_pile.length + mindLC.discarded_cards.length +
        (mindLC.player_hands.map (fun h => h.length)).sum =
      mindLC.current_level * mindLC.num_players) := by
  refine ⟨?_, by decide, by decide⟩
  exact TheMind.Reachable.play _ 0 100
    (TheMind.Reachable.setup _ _ (TheMind.Reachable.init 2 _ (by decide))
      (List.Perm.refl _))

/-- Claim C3 (amended): in every reachable state of the ascending-card
engine whose state tag is `in_progress`, `game_won` or `game_lost` — i.e.
outside the `setup` and `level_complete` windows, where the hands of the
incremented level have not been dealt yet — the size of the played pile plus
the number of discarded cards plus the sizes of all hands equals
`current_level × num_players`. -/
theorem C3_card_accounting (s : TheMind.MindState)
    (h : TheMind.Reachable s)
    (htag : s.state = TheMind.GameState.IN_PROGRESS ∨
      s.state = TheMind.GameState.GAME_WON ∨
      s.state = TheMind.GameState.GAME_LOST) :
    s.played_pile.length + s.discarded_cards.length +
        (s.player_hands.map (fun h => h.length)).sum =
      s.current_level * s.num_players :=
  (mind_reachable_inv s h).2.2.2.2 htag

/-- Witness for claim C3 (amended): the freshly dealt two-player level-1
state is reachable and in progress, and its accounting equation holds
(`0 + 0 + 2 = 1 × 2`). -/
theorem C3_card_accounting_witness :
    (TheMind.setup_level TheMind.mind2 (List.range' 1 100)).played_pile.length +
        (TheMind.setup_level TheMind.mind2 (List.range' 1 100)).discarded_cards.length +
        ((TheMind.setup_level TheMind.mind2 (List.range' 1 100)).player_hands.map
          (fun h => h.length)).sum =
      (TheMind.setup_level TheMind.mind2 (List.range' 1 100)).current_level *
        (TheMind.setup_level TheMind.mind2 (List.range' 1 100)).num_players := by
  exact C3_card_accounting _
    (TheMind.Reachable.setup _ _ (TheMind.Reachable.init 2 _ (by decide))
      (List.Perm.refl _))
    (Or.inl (by decide))
